import Mathlib

/-!
# gramgo: update ingestion, dispatch and request encoding

A shallow embedding of the Go package `gramgo` (files `update.go`,
`middleware.go`, `polling.go`, `errors.go`, `request.go`, `webhook.go`) and
theorems about it.

Conventions of the embedding.

* A Go `string` is a sequence of bytes (`GoString`); literals are written
  `str "..."`, their UTF-8 encoding.
* Go `int` and `int64` values are `Int`; where the program does arithmetic on
  them the 64-bit wrap-around is explicit (`wrapInt64`).
* A nil-able pointer or interface is an `Option`.
* A run-time fault (slice out of range, nil dereference) is the result `none`
  of a function returning `Option`.
* Handlers are effectful Go functions; they are state transformers over an
  arbitrary world state `σ` (which also holds whatever a handler keeps in the
  mutable `Context.Data` bag). Calls of `log.Printf` are not recorded.
-/

namespace Gramgo

/-! ## Go primitives -/

/-- A Go string: an immutable sequence of bytes. -/
abbrev GoString := List UInt8

/-- The Go string literal with the given text (UTF-8 encoded). -/
def str (s : String) : GoString := s.data.flatMap String.utf8EncodeChar

/-- Two's-complement wrap-around of a mathematical integer into `int64`. -/
def wrapInt64 (x : Int) : Int := (x + 2 ^ 63) % 2 ^ 64 - 2 ^ 63

/-- The Go slice expression `s[:n]`; `none` is the run-time fault raised when
`n` is negative or exceeds `len(s)`. -/
def sliceTo (s : GoString) (n : Int) : Option GoString :=
  if 0 ≤ n ∧ n ≤ (s.length : Int) then some (s.take n.toNat) else none

/-! ## Package `types` (declarations used by the core) -/

/-- Modelled from the spec: the declaration of `types.User` is not part of the
sources; only the field `ID` (an `int64`) is used by the core. -/
structure User where
  ID : Int
deriving DecidableEq, Repr

/-- Modelled from the spec: the declaration of `types.MessageEntity` is not
part of the sources; `Type`, `Offset` and `Length` are the fields read by
`FilterCommand`. -/
structure MessageEntity where
  Type_ : GoString
  Offset : Int
  Length : Int
deriving DecidableEq, Repr

/-- Modelled from the spec: the declaration of `types.Message` is not part of
the sources; `From` (nil-able), `Text` and `Entities` are the fields read by
the core. -/
structure Message where
  From : Option User
  Text : GoString
  Entities : List MessageEntity
deriving DecidableEq, Repr

/-- Modelled from the spec: the declaration of `types.CallbackQuery` is not
part of the sources; `RateLimit` reads `From.ID` without a nil check. -/
structure CallbackQuery where
  From : User
deriving DecidableEq, Repr

/-- Modelled from the spec: the declaration of `types.InlineQuery` is not part
of the sources; the core only tests the pointer to it against nil. -/
structure InlineQuery where
  From : User
deriving DecidableEq, Repr

/-- Modelled from the spec: the declaration of `types.Update` is not part of
the sources; it carries the `int64` identifier and one nil-able pointer per
kind of payload. -/
structure Update where
  ID : Int
  Message : Option Gramgo.Message
  EditedMessage : Option Gramgo.Message
  ChannelPost : Option Gramgo.Message
  CallbackQuery : Option Gramgo.CallbackQuery
  InlineQuery : Option Gramgo.InlineQuery
deriving DecidableEq, Repr

/-- Modelled from the spec: the declaration of `types.ResponseParameters` is
not part of the sources; it carries the two hints of an error envelope. -/
structure ResponseParameters where
  RetryAfter : Int
  MigrateToChatID : Int
deriving DecidableEq, Repr

/-- Modelled from the spec: the declaration of `types.APIResponse` is not part
of the sources; `Result` is the raw JSON payload, `Parameters` is nil-able. -/
structure APIResponse where
  Ok : Bool
  Result : GoString
  ErrorCode : Int
  Description : GoString
  Parameters : Option ResponseParameters
deriving DecidableEq, Repr

/-! ## errors.go -/

/-- The Go type `APIError`. -/
structure APIError where
  Code : Int
  Description : GoString
  Parameters : Option ResponseParameters
deriving DecidableEq, Repr

/-- A non-nil value of the Go interface `error`, as far as the package can
tell values apart: a `*APIError` (the pointer itself may be nil), an error
without a cause (`errors.New`), or an error wrapping a cause
(`fmt.Errorf` with `%w`). -/
inductive GoError where
  | api (e : Option APIError)
  | plain (msg : GoString)
  | wrap (msg : GoString) (cause : GoError)
deriving DecidableEq, Repr

/-- The call `errors.As(err, &apiErr)` for `apiErr` of type `*APIError`: the
first `*APIError` in the `Unwrap` chain of `err`, if there is one. -/
def errorsAsAPIError : GoError → Option (Option APIError)
  | .api e => some e
  | .plain _ => none
  | .wrap _ cause => errorsAsAPIError cause

/-- The function `IsRetryableError`; `err = none` is the nil error and the
result `none` is the nil dereference of a nil `*APIError`. -/
def IsRetryableError (err : Option GoError) : Option Bool :=
  match err.bind errorsAsAPIError with
  | some (some apiErr) => some (apiErr.Code == 429 || decide (apiErr.Code ≥ 500))
  | some none => none
  | none => some false

/-- The function `GetRetryAfter`; `err = none` is the nil error and the result
`none` is the nil dereference of a nil `*APIError`. -/
def GetRetryAfter (err : Option GoError) : Option Int :=
  match err.bind errorsAsAPIError with
  | some (some apiErr) =>
    match apiErr.Parameters with
    | some params => some params.RetryAfter
    | none => some 0
  | some none => none
  | none => some 0

/-! ## update.go -/

/-- The filter returned by `FilterCommand(command)`, applied to an update. The
result `none` is the run-time fault of the slice `Text[:entity.Length]`. -/
def FilterCommand (command : GoString) (update : Update) : Option Bool :=
  match update.Message with
  | none => some false
  | some msg =>
    if msg.Text = [] then some false
    else
      match msg.Entities with
      | [] => some false
      | entity :: _ =>
        if entity.Type_ ≠ str "bot_command" ∨ entity.Offset ≠ 0 then some false
        else
          match sliceTo msg.Text entity.Length with
          | none => none
          | some cmd =>
            some (cmd == str "/" ++ command || cmd == str "/" ++ command ++ str "@")

/-! ## middleware.go -/

/-- The Go type `Context`, reduced to the update being processed: the embedded
`context.Context` and the back pointer to the bot are not inspected by the
core, and the mutable `Data` bag is part of the world state. -/
structure Context where
  Update : Update
deriving DecidableEq, Repr

/-- The Go type `HandlerFunc`: an effectful function from a context to an
error, `none` being the nil error. -/
abbrev HandlerFunc (σ : Type) := Context → σ → Option GoError × σ

/-- The Go type `MiddlewareFunc`. -/
abbrev MiddlewareFunc (σ : Type) := HandlerFunc σ → HandlerFunc σ

set_option linter.dupNamespace false in
/-- The Go type `handler`: a terminal handler with its own middleware. -/
structure handler (σ : Type) where
  handler : HandlerFunc σ
  middleware : List (MiddlewareFunc σ)

/-- The function `newHandler`. -/
def newHandler {σ : Type} (handlr : HandlerFunc σ) (middleware : List (MiddlewareFunc σ)) :
    handler σ :=
  { handler := handlr, middleware := middleware }

/-- The loop `for i := len(middleware) - 1; i >= 0; i-- { final = middleware[i](final) }`
with `n` iterations left, that is with `i = n - 1`. -/
def wrapLoop {σ : Type} (middleware : List (MiddlewareFunc σ)) :
    Nat → HandlerFunc σ → HandlerFunc σ
  | 0, final => final
  | i + 1, final =>
    match middleware.get? i with
    | some m => wrapLoop middleware i (m final)
    | none => wrapLoop middleware i final

/-- The method `handler.handle`. -/
def handler.handle {σ : Type} (h : Gramgo.handler σ) (ctx : Context) (w : σ) : Option GoError × σ :=
  let final := wrapLoop h.middleware h.middleware.length h.handler
  final ctx w

/-- The per-identity record `userLimit` of `RateLimit`; times are instants on
an integer clock. -/
structure userLimit where
  count : Int
  resetTime : Int
deriving DecidableEq, Repr

/-- The map `limits` of `RateLimit`, from user identifier to record. -/
abbrev Limits := Int → Option userLimit

/-- The identity that `RateLimit` extracts from an update: the sender of the
message, else the sender of the callback query, else `0`. -/
def rateLimitUserID (update : Update) : Int :=
  match update.Message.bind (fun msg => msg.From) with
  | some sender => sender.ID
  | none =>
    match update.CallbackQuery with
    | some query => query.From.ID
    | none => 0

/-- The handler `RateLimit(maxRequests, duration)(next)`, with the reading
`now` of the clock and the captured map `limits` made explicit. -/
def RateLimit {σ : Type} (maxRequests : Int) (duration : Int) (next : HandlerFunc σ)
    (ctx : Context) (now : Int) (limits : Limits) (w : σ) : Option GoError × Limits × σ :=
  let userID := rateLimitUserID ctx.Update
  if userID = 0 then
    let r := next ctx w
    (r.1, limits, r.2)
  else
    match limits userID with
    | none =>
      let r := next ctx w
      (r.1, Function.update limits userID (some { count := 1, resetTime := now + duration }), r.2)
    | some limit =>
      if now > limit.resetTime then
        let r := next ctx w
        (r.1, Function.update limits userID (some { count := 1, resetTime := now + duration }), r.2)
      else if limit.count ≥ maxRequests then
        (none, limits, w)
      else
        let r := next ctx w
        (r.1, Function.update limits userID (some { limit with count := limit.count + 1 }), r.2)

/-! ## bot.go and polling.go -/

/-- The Go type `GramGoBot`, reduced to the state that dispatch reads: the
bot-level middleware and the handler lists by kind of update. -/
structure GramGoBot (σ : Type) where
  middleware : List (MiddlewareFunc σ)
  handlers : GoString → Option (List (handler σ))

/-- The function `newContext`. -/
def newContext (update : Update) : Context := { Update := update }

/-- The `switch` of `routeUpdate` that names the kind of an update. -/
def handlerType (update : Update) : GoString :=
  if update.Message.isSome then str "message"
  else if update.EditedMessage.isSome then str "edited_message"
  else if update.ChannelPost.isSome then str "channel_post"
  else if update.CallbackQuery.isSome then str "callback_query"
  else if update.InlineQuery.isSome then str "inline_query"
  else str "other"

/-- The loop of `routeUpdate` over the handlers of one kind: it returns at the
first handler that fails. -/
def runHandlers {σ : Type} : List (handler σ) → HandlerFunc σ
  | [], _, w => (none, w)
  | h :: rest, ctx, w =>
    match h.handle ctx w with
    | (some err, w') => (some err, w')
    | (none, w') => runHandlers rest ctx w'

/-- The method `routeUpdate`. -/
def routeUpdate {σ : Type} (b : GramGoBot σ) : HandlerFunc σ := fun ctx w =>
  match b.handlers (handlerType ctx.Update) with
  | none => (none, w)
  | some handlers => runHandlers handlers ctx w

/-- The method `handleUpdate`. It returns the world after the dispatch
together with the error that it logs, if any. -/
def handleUpdate {σ : Type} (b : GramGoBot σ) (update : Update) (w : σ) : Option GoError × σ :=
  let updateCtx := newContext update
  let handler := wrapLoop b.middleware b.middleware.length (routeUpdate b)
  handler updateCtx w

/-- The loop `for _, update := range updates` of `StartPolling`, on the state
made of the cursor `offset` and the rest of the program `τ`. The statement
`go b.handleUpdate(ctx, &update)` acts on the rest of the program through
`spawn`, which has no access to the local variable `offset`. -/
def batchLoop {τ : Type} (spawn : Update → τ → τ) : List Update → Int × τ → Int × τ
  | [], st => st
  | update :: rest, (_, t) => batchLoop spawn rest (wrapInt64 (update.ID + 1), spawn update t)

/-- The `default` branch of the loop of `StartPolling` once `getUpdates` has
returned: a failed fetch leaves the cursor alone, a successful one runs the
batch loop. -/
def pollStep {τ : Type} (spawn : Update → τ → τ) (fetched : Except GoError (List Update))
    (st : Int × τ) : Int × τ :=
  match fetched with
  | .error _ => st
  | .ok updates => batchLoop spawn updates st

/-- An identifier `m` is the maximum update ID of a batch. -/
def IsMaxID (m : Int) (batch : List Update) : Prop :=
  (∃ u ∈ batch, u.ID = m) ∧ ∀ u ∈ batch, u.ID ≤ m


/-! ## Fixtures used in the statements -/

/-- An update that carries only the identifier `id`. -/
def updateWithID (id : Int) : Update :=
  ⟨id, none, none, none, none, none⟩

/-- A message update whose text is `text` and whose entities are `entities`. -/
def textUpdate (text : GoString) (entities : List MessageEntity) : Update :=
  ⟨1, some ⟨none, text, entities⟩, none, none, none, none⟩

/-- A message update with text `text` whose only entity is a `bot_command` at
offset 0 of length `length`. -/
def commandUpdate (text : GoString) (length : Int) : Update :=
  textUpdate text [⟨str "bot_command", 0, length⟩]

/-- A middleware that records `name-before`, runs the wrapped handler and then
records `name-after`, on a world that is the list of recorded events. -/
def traceMiddleware (name : String) : MiddlewareFunc (List String) := fun next ctx w =>
  let r := next ctx (w ++ [name ++ "-before"])
  (r.1, r.2 ++ [name ++ "-after"])

/-- A terminal handler that records `H`. -/
def traceHandler : HandlerFunc (List String) := fun _ w => (none, w ++ ["H"])

/-- A bot with bot-level middleware `ms` whose only registration is the handler
`h`, without middleware of its own, for messages. -/
def botWith {σ : Type} (ms : List (MiddlewareFunc σ)) (h : HandlerFunc σ) : GramGoBot σ :=
  ⟨ms, fun kind => if kind = str "message" then some [newHandler h []] else none⟩

/-! ## request.go: error envelopes -/

/-- The rendering of an integer by the verb `%d` of `fmt.Sprintf`. -/
def fmtInt (i : Int) : GoString := str (toString i)

/-- The method `handleAPIError`. -/
def handleAPIError (method : GoString) (resp : APIResponse) : GoError :=
  let baseErr : APIError :=
    { Code := resp.ErrorCode, Description := resp.Description, Parameters := resp.Parameters }
  let baseErr : APIError :=
    if resp.ErrorCode = 400 then
      { baseErr with
        Description := str "bad request for " ++ method ++ str ": " ++ resp.Description }
    else if resp.ErrorCode = 401 then
      { baseErr with
        Description := str "unauthorized for " ++ method ++ str ": " ++ resp.Description
          ++ str " (check your bot token)" }
    else if resp.ErrorCode = 403 then
      { baseErr with
        Description := str "forbidden for " ++ method ++ str ": " ++ resp.Description }
    else if resp.ErrorCode = 404 then
      { baseErr with
        Description := str "not found for " ++ method ++ str ": " ++ resp.Description }
    else if resp.ErrorCode = 409 then
      { baseErr with
        Description := str "conflict for " ++ method ++ str ": " ++ resp.Description }
    else if resp.ErrorCode = 429 then
      { baseErr with
        Description := str "rate limited for " ++ method ++ str ": " ++ resp.Description }
    else
      { baseErr with
        Description := str "API error for " ++ method ++ str " (" ++ fmtInt resp.ErrorCode
          ++ str "): " ++ resp.Description }
  GoError.api (some baseErr)

/-- An error is an API error when a `*APIError` occurs in its `Unwrap` chain
(the sense of `errors.As`). -/
def IsAPIError : GoError → Prop
  | .api _ => True
  | .plain _ => False
  | .wrap _ cause => IsAPIError cause

/-! ## middleware.go: runs of the rate limiter -/

/-- Successive calls of the handler `RateLimit(maxRequests, duration)(next)`,
one per pair of a context and a reading of the clock; the result lists the
error returned by each call. -/
def runCalls {σ : Type} (maxRequests : Int) (duration : Int) (next : HandlerFunc σ) :
    List (Context × Int) → Limits → σ → List (Option GoError) × Limits × σ
  | [], limits, w => ([], limits, w)
  | (ctx, now) :: rest, limits, w =>
    let r := RateLimit maxRequests duration next ctx now limits w
    let rs := runCalls maxRequests duration next rest r.2.1 r.2.2
    (r.1 :: rs.1, rs.2.1, rs.2.2)

/-- The behaviour the rate limiter is to show inside one window: of the calls
for the given contexts only the first `allowed` invoke `next` and return its
error, every later call returns success and leaves the world alone. -/
def firstAllowed {σ : Type} (next : HandlerFunc σ) :
    Nat → List Context → σ → List (Option GoError) × σ
  | _, [], w => ([], w)
  | 0, _ :: rest, w =>
    let rs := firstAllowed next 0 rest w
    (none :: rs.1, rs.2)
  | allowed + 1, ctx :: rest, w =>
    let r := next ctx w
    let rs := firstAllowed next allowed rest r.2
    (r.1 :: rs.1, rs.2)

/-- A context whose update is a message sent by the user `id`. -/
def ctxFromUser (id : Int) : Context :=
  ⟨⟨1, some ⟨some ⟨id⟩, str "hi", []⟩, none, none, none, none⟩⟩

/-- A terminal handler that counts its invocations. -/
def countingHandler : HandlerFunc Nat := fun _ n => (none, n + 1)

/-! ## webhook.go -/

/-- An inbound HTTP request as `WebhookHandler` reads it: the value of the
header `X-Telegram-Bot-Api-Secret-Token` (empty when absent) and the result of
`io.ReadAll(r.Body)`. -/
structure WebhookRequest where
  secretHeader : GoString
  body : Except GoError GoString

/-- What `WebhookHandler` does with one request: the status code it replies
with, the message it hands to `http.Error`, and the updates for which it
starts `go b.handleUpdate`. -/
structure WebhookReply where
  status : Nat
  text : GoString
  dispatched : List Update
deriving DecidableEq, Repr

/-- The handler returned by `WebhookHandler(secretToken)`. The decoder
`unmarshal` stands for `json.Unmarshal` into a `types.Update`, `none` being a
decoding error. -/
def WebhookHandler (unmarshal : GoString → Option Update) (secretToken : GoString)
    (r : WebhookRequest) : WebhookReply :=
  if secretToken ≠ [] ∧ r.secretHeader ≠ secretToken then
    ⟨401, str "Unauthorized", []⟩
  else
    match r.body with
    | .error _ => ⟨400, str "Bad Request", []⟩
    | .ok body =>
      match unmarshal body with
      | none => ⟨400, str "Bad Request", []⟩
      | some update => ⟨200, [], [update]⟩

/-- A decoder that accepts exactly the body `\x7b"update_id":7\x7d`. -/
def sampleUnmarshal (body : GoString) : Option Update :=
  if body = str "\x7b\"update_id\":7\x7d" then some (updateWithID 7) else none

/-! ## request.go: the encoder

The encoder inspects its argument through the package `reflect`. A `Value` is
what `reflect` shows of a Go value: its kind and, by kind, its content. -/

/-- The kinds of `reflect.Kind`. -/
inductive Kind where
  | Invalid | Bool | Int | Int8 | Int16 | Int32 | Int64
  | Uint | Uint8 | Uint16 | Uint32 | Uint64 | Uintptr
  | Float32 | Float64 | Complex64 | Complex128
  | Array | Chan | Func | Interface | Map | Pointer | Slice | String | Struct
  | UnsafePointer
deriving DecidableEq, Repr

/-- The method `Kind.String`. -/
def Kind.toGoString : Kind → GoString
  | .Invalid => str "invalid" | .Bool => str "bool"
  | .Int => str "int" | .Int8 => str "int8" | .Int16 => str "int16"
  | .Int32 => str "int32" | .Int64 => str "int64"
  | .Uint => str "uint" | .Uint8 => str "uint8" | .Uint16 => str "uint16"
  | .Uint32 => str "uint32" | .Uint64 => str "uint64" | .Uintptr => str "uintptr"
  | .Float32 => str "float32" | .Float64 => str "float64"
  | .Complex64 => str "complex64" | .Complex128 => str "complex128"
  | .Array => str "array" | .Chan => str "chan" | .Func => str "func"
  | .Interface => str "interface" | .Map => str "map" | .Pointer => str "ptr"
  | .Slice => str "slice" | .String => str "string" | .Struct => str "struct"
  | .UnsafePointer => str "unsafe.Pointer"

/-- The signed integer kinds. -/
inductive IntKind where
  | Int | Int8 | Int16 | Int32 | Int64
deriving DecidableEq, Repr

/-- The unsigned integer kinds that `Value.Uint` is used on by the encoder. -/
inductive UintKind where
  | Uint | Uint8 | Uint16 | Uint32 | Uint64
deriving DecidableEq, Repr

/-- The floating-point kinds. -/
inductive FloatKind where
  | Float32 | Float64
deriving DecidableEq, Repr

/-- The kinds whose content the encoder never reads. -/
inductive UnreadKind where
  | Uintptr | Complex64 | Complex128 | Chan | Func | UnsafePointer
deriving DecidableEq, Repr

/-- A source of bytes behind an `io.Reader`: what `io.Copy` reads from it and
whether the reading ends with an error. -/
structure Reader where
  content : GoString
  fails : Bool
deriving DecidableEq, Repr

/-- Modelled from the spec: the declaration of `types.InputFileUpload` is not
part of the sources; `writeFileUpload` reads the fields `Filename` and `Data`
(a nil-able `io.Reader`). -/
structure InputFileUpload where
  Filename : GoString
  Data : Option Reader
deriving DecidableEq, Repr

/-- Modelled from the spec: the declaration of `types.InputFileString` is not
part of the sources; `writeFormField` reads the field `Data`. -/
structure InputFileString where
  Data : GoString
deriving DecidableEq, Repr

/-- What `reflect.StructField` and `Value.CanInterface` tell of one field of a
struct: its name, whether it is exported, and the result of
`Tag.Get("json")`. -/
structure StructField where
  Name : GoString
  exported : Bool
  jsonTag : GoString
deriving DecidableEq, Repr

/-- A Go value as seen through `reflect`. A floating-point value is the
IEEE-754 binary64 bit pattern of `Value.Float()`. A nil slice, map, pointer or
interface is `none`. The pointer types `*types.InputFileUpload` and
`*types.InputFileString`, which the encoder recognises by type assertion, have
constructors of their own; `ptr` is a pointer of any other type. -/
inductive Value where
  | invalid
  | bool (b : Bool)
  | int (k : IntKind) (i : Int)
  | uint (k : UintKind) (n : Nat)
  | float (k : FloatKind) (bits : Nat)
  | string (s : GoString)
  | array (elems : List Value)
  | slice (elems : Option (List Value))
  | map (entries : Option (List (Value × Value)))
  | struct (fields : List (StructField × Value))
  | ptr (target : Option Value)
  | uploadPtr (file : Option InputFileUpload)
  | fileStringPtr (file : Option InputFileString)
  | iface (dyn : Option Value)
  | unread (k : UnreadKind)

/-- The method `Value.Kind`. -/
def Value.Kind : Value → Kind
  | .invalid => .Invalid
  | .bool _ => .Bool
  | .int .Int _ => .Int | .int .Int8 _ => .Int8 | .int .Int16 _ => .Int16
  | .int .Int32 _ => .Int32 | .int .Int64 _ => .Int64
  | .uint .Uint _ => .Uint | .uint .Uint8 _ => .Uint8 | .uint .Uint16 _ => .Uint16
  | .uint .Uint32 _ => .Uint32 | .uint .Uint64 _ => .Uint64
  | .float .Float32 _ => .Float32 | .float .Float64 _ => .Float64
  | .string _ => .String
  | .array _ => .Array
  | .slice _ => .Slice
  | .map _ => .Map
  | .struct _ => .Struct
  | .ptr _ => .Pointer
  | .uploadPtr _ => .Pointer
  | .fileStringPtr _ => .Pointer
  | .iface _ => .Interface
  | .unread .Uintptr => .Uintptr | .unread .Complex64 => .Complex64
  | .unread .Complex128 => .Complex128 | .unread .Chan => .Chan
  | .unread .Func => .Func | .unread .UnsafePointer => .UnsafePointer

/-- The method `Value.IsNil`, on the kinds the encoder calls it on. -/
def Value.IsNil : Value → Bool
  | .ptr none => true
  | .uploadPtr none => true
  | .fileStringPtr none => true
  | .iface none => true
  | _ => false

/-- Modelled from the spec: the struct behind a `*types.InputFileUpload` as
`reflect` shows it. The declaration is not part of the sources: the two fields
are taken to be exported and untagged, and the reader to be a pointer to a
struct without exported fields. -/
def InputFileUpload.toValue (file : InputFileUpload) : Value :=
  .struct [(⟨str "Filename", true, []⟩, .string file.Filename),
    (⟨str "Data", true, []⟩, .iface (file.Data.map (fun _ => .ptr (some (.struct [])))))]

/-- Modelled from the spec: the struct behind a `*types.InputFileString` as
`reflect` shows it. The declaration is not part of the sources: the field is
taken to be exported and untagged. -/
def InputFileString.toValue (file : InputFileString) : Value :=
  .struct [(⟨str "Data", true, []⟩, .string file.Data)]

/-- The method `Value.Elem` on a pointer or an interface; the zero `Value` for
a nil one. -/
def Value.Elem : Value → Value
  | .ptr (some target) => target
  | .uploadPtr (some file) => file.toValue
  | .fileStringPtr (some file) => file.toValue
  | .iface (some dyn) => dyn
  | _ => .invalid

/-- The test `v.Kind() == reflect.Ptr && !v.IsNil()` followed by the type
assertion `v.Interface().(*types.InputFileUpload)`. -/
def Value.asUpload : Value → Option InputFileUpload
  | .uploadPtr (some file) => some file
  | _ => none

/-- The test `v.Kind() == reflect.Ptr && !v.IsNil()` followed by the type
assertion `v.Interface().(*types.InputFileString)`. -/
def Value.asFileString : Value → Option InputFileString
  | .fileStringPtr (some file) => some file
  | _ => none

/-- The method `Value.Len` on an array, a map, a slice or a string. -/
def Value.Len : Value → Nat
  | .array elems => elems.length
  | .slice (some elems) => elems.length
  | .map (some entries) => entries.length
  | .string s => s.length
  | _ => 0

/-- The loop of `shouldUseMultipart` over the fields of the struct. -/
def scanUploadFields : List (StructField × Value) → Bool
  | [] => false
  | (fieldType, field) :: rest =>
    if !fieldType.exported then scanUploadFields rest
    else if field.asUpload.isSome then true
    else if field.Kind = .Interface ∧ !field.IsNil ∧ field.Elem.asUpload.isSome then true
    else scanUploadFields rest

/-- The function `shouldUseMultipart`; `params = none` is the nil interface. -/
def shouldUseMultipart (params : Option Value) : Bool :=
  match params with
  | none => false
  | some v =>
    if v.Kind = .Pointer ∧ v.IsNil then false
    else
      match (if v.Kind = .Pointer then v.Elem else v) with
      | .struct fields => scanUploadFields fields
      | _ => false

/-- The function `strings.Split(s, sep)` for a separator of one byte. -/
def stringsSplit (sep : UInt8) : GoString → List GoString
  | [] => [[]]
  | c :: cs =>
    if c = sep then [] :: stringsSplit sep cs
    else
      match stringsSplit sep cs with
      | [] => [[c]]
      | part :: parts => (c :: part) :: parts

/-- The loop of `parseJSONTag` over `parts[1:]`. -/
def omitEmptyLoop : List GoString → Bool
  | [] => false
  | part :: rest => if part = str "omitempty" then true else omitEmptyLoop rest

/-- The function `parseJSONTag`. -/
def parseJSONTag (tag : GoString) : GoString × Bool :=
  let parts := stringsSplit 44 tag
  (parts.headD [], omitEmptyLoop (parts.drop 1))

/-- The function `isZeroValue`. -/
def isZeroValue : Value → Bool
  | .invalid => true
  | .array elems => elems.length == 0
  | .map entries => (Value.map entries).Len == 0
  | .slice elems => (Value.slice elems).Len == 0
  | .string s => s.length == 0
  | .bool b => !b
  | .int _ i => i == 0
  | .uint _ n => n == 0
  | .float _ bits => bits % 2 ^ 63 == 0
  | .iface dyn => dyn.isNone
  | .ptr target => target.isNone
  | .uploadPtr file => file.isNone
  | .fileStringPtr file => file.isNone
  | .struct _ => false
  | .unread _ => false

/-- The function `isNilOrEmpty`; `i = none` is the nil interface. -/
def isNilOrEmpty (i : Option Value) : Bool :=
  match i with
  | none => true
  | some v =>
    if v.Kind = .Pointer ∨ v.Kind = .Interface then v.IsNil
    else if v.Kind = .Slice ∨ v.Kind = .Map then v.Len == 0
    else false

/-- The functions of the Go standard library that the encoder calls and that
are not modelled: the verb `%f` of `fmt.Sprintf`, on the bit pattern of the
number, and `json.Marshal`. -/
structure Codec where
  sprintfFloat : Nat → GoString
  jsonMarshal : Value → Except GoError GoString

/-- One part of a multi-part body: the name of the form field, the file name
of a file part, and the content. -/
structure Part where
  name : GoString
  filename : Option GoString
  content : GoString
deriving DecidableEq, Repr

/-- The state of a `multipart.Writer`: the parts written so far, in order. The
underlying pipe is taken to accept every write. -/
abbrev Writer := List Part

/-- The method `Writer.WriteField`. -/
def Writer.WriteField (writer : Writer) (fieldName value : GoString) :
    Option GoError × Writer :=
  (none, writer ++ [⟨fieldName, none, value⟩])

/-- The function `bytes.Trim(data, "\"")`. -/
def trimQuotes (data : GoString) : GoString :=
  ((data.dropWhile (· == 34)).reverse.dropWhile (· == 34)).reverse

/-- The method `writeFileUpload`. -/
def writeFileUpload (writer : Writer) (fieldName : GoString) (file : InputFileUpload) :
    Option GoError × Writer :=
  match file.Data with
  | none => (some (.plain (str "file data is nil for field " ++ fieldName)), writer)
  | some data =>
    let writer := writer ++ [⟨fieldName, some file.Filename, data.content⟩]
    if data.fails then
      (some (.wrap (str "failed to copy file data") (.plain (str "read error"))), writer)
    else (none, writer)

/-- The method `writeFormField`. -/
def writeFormField (lib : Codec) (writer : Writer) (fieldName : GoString) (field : Value) :
    Option GoError × Writer :=
  if field.Kind = .Interface ∧ field.IsNil then (none, writer)
  else
    let field := if field.Kind = .Interface then field.Elem else field
    match field.asUpload with
    | some fileUpload => writeFileUpload writer fieldName fileUpload
    | none =>
      match field.asFileString with
      | some fileString => writer.WriteField fieldName fileString.Data
      | none =>
        match field with
        | .string s => writer.WriteField fieldName s
        | .int _ i => writer.WriteField fieldName (fmtInt i)
        | .uint _ n => writer.WriteField fieldName (fmtInt n)
        | .float _ bits => writer.WriteField fieldName (lib.sprintfFloat bits)
        | .bool b => writer.WriteField fieldName (if b then str "true" else str "false")
        | .slice _ | .array _ | .map _ | .struct _ | .ptr _ | .uploadPtr _
        | .fileStringPtr _ =>
          match lib.jsonMarshal field with
          | .error err => (some (.wrap (str "failed to marshal field") err), writer)
          | .ok data => writer.WriteField fieldName (trimQuotes data)
        | .invalid | .iface _ | .unread _ =>
          (some (.plain (str "unsupported field type: " ++ field.Kind.toGoString)), writer)

/-- The loop of `writeFormFields` over the fields of the struct. -/
def writeFieldsLoop (lib : Codec) : Writer → List (StructField × Value) → Option GoError × Writer
  | writer, [] => (none, writer)
  | writer, (fieldType, field) :: rest =>
    if !fieldType.exported then writeFieldsLoop lib writer rest
    else if fieldType.jsonTag = [] ∨ fieldType.jsonTag = str "-" then
      writeFieldsLoop lib writer rest
    else if (parseJSONTag fieldType.jsonTag).2 && isZeroValue field then
      writeFieldsLoop lib writer rest
    else
      match writeFormField lib writer (parseJSONTag fieldType.jsonTag).1 field with
      | (some err, writer') =>
        (some (.wrap (str "failed to write field " ++ (parseJSONTag fieldType.jsonTag).1) err),
          writer')
      | (none, writer') => writeFieldsLoop lib writer' rest

/-- The method `writeFormFields`; `params = none` is the nil interface. -/
def writeFormFields (lib : Codec) (writer : Writer) (params : Option Value) :
    Option GoError × Writer :=
  match params with
  | none => (none, writer)
  | some v =>
    if v.Kind = .Pointer ∧ v.IsNil then (none, writer)
    else
      match (if v.Kind = .Pointer then v.Elem else v) with
      | .struct fields => writeFieldsLoop lib writer fields
      | other =>
        (some (.plain (str "params must be a struct, got " ++ other.Kind.toGoString)), writer)

/-- The body that `buildRequest` gives the request: a multi-part body, with
the outcome of writing the form fields into it, or a structured body (absent
for nil or empty parameters). -/
inductive RequestBody where
  | multipart (err : Option GoError) (parts : Writer)
  | json (body : Option GoString)

/-- The method `buildJSONRequest`, for a well-formed URL. -/
def buildJSONRequest (lib : Codec) (params : Option Value) : Except GoError RequestBody :=
  match params with
  | none => .ok (.json none)
  | some v =>
    if isNilOrEmpty (some v) then .ok (.json none)
    else
      match lib.jsonMarshal v with
      | .error err => .error (.wrap (str "failed to marshal params") err)
      | .ok data => .ok (.json (some data))

/-- The method `buildMultipartRequest`, for a well-formed URL: the body is what
the spawned writer puts into the pipe, and an error of `writeFormFields` is
wrapped once more before the pipe is closed with it. -/
def buildMultipartRequest (lib : Codec) (params : Option Value) : Except GoError RequestBody :=
  let r := writeFormFields lib [] params
  .ok (.multipart (r.1.map (fun err => .wrap (str "failed to write form fields") err)) r.2)

/-- The method `buildRequest`, for a well-formed URL. -/
def buildRequest (lib : Codec) (params : Option Value) : Except GoError RequestBody :=
  if shouldUseMultipart params then buildMultipartRequest lib params
  else buildJSONRequest lib params

/-! ## request.go: the notions of the specification -/

/-- The fields of the request struct: of the value itself when it is a struct,
of the struct it points to when it is a non-nil pointer to one. -/
def requestFields (params : Option Value) : Option (List (StructField × Value)) :=
  match params with
  | none => none
  | some v =>
    match (if v.Kind = .Pointer then v.Elem else v) with
    | .struct fields => some fields
    | _ => none

/-- A field value holds a binary upload: it is a non-nil `*InputFileUpload`,
or an interface that boxes one. -/
def HoldsUpload (v : Value) : Prop :=
  (∃ file, v = .uploadPtr (some file)) ∨ (∃ file, v = .iface (some (.uploadPtr (some file))))

mutual
/-- A non-nil `*InputFileUpload` is reachable in the value: it is one, or one
is reachable in an element, a map entry, an exported field, the target of a
pointer or the content of an interface. -/
def reachesUpload : Value → Bool
  | .uploadPtr (some _) => true
  | .array elems => reachesUploadList elems
  | .slice (some elems) => reachesUploadList elems
  | .map (some entries) => reachesUploadEntries entries
  | .struct fields => reachesUploadFields fields
  | .ptr (some target) => reachesUpload target
  | .iface (some dyn) => reachesUpload dyn
  | _ => false
/-- A non-nil upload is reachable in one of the values. -/
def reachesUploadList : List Value → Bool
  | [] => false
  | v :: vs => reachesUpload v || reachesUploadList vs
/-- A non-nil upload is reachable in a key or a value of one of the entries. -/
def reachesUploadEntries : List (Value × Value) → Bool
  | [] => false
  | (k, v) :: es => reachesUpload k || reachesUpload v || reachesUploadEntries es
/-- A non-nil upload is reachable in one of the exported fields. -/
def reachesUploadFields : List (StructField × Value) → Bool
  | [] => false
  | (fieldType, v) :: fs => (fieldType.exported && reachesUpload v) || reachesUploadFields fs
end

/-- The value is the empty string, a zero number, false, nil, or an empty
slice, map or array (or the zero `reflect.Value`, which no field has). -/
def IsEmptyValue : Value → Prop
  | .invalid => True
  | .string s => s = []
  | .int _ i => i = 0
  | .uint _ n => n = 0
  | .float _ bits => bits % 2 ^ 63 = 0
  | .bool b => b = false
  | .ptr target => target = none
  | .uploadPtr file => file = none
  | .fileStringPtr file => file = none
  | .iface dyn => dyn = none
  | .slice elems => elems.getD [] = []
  | .map entries => entries.getD [] = []
  | .array elems => elems = []
  | .struct _ => False
  | .unread _ => False

/-- The field has a wire name: it is exported and its json tag is neither
absent nor `-`. -/
def HasWireName (fieldType : StructField) : Prop :=
  fieldType.exported = true ∧ fieldType.jsonTag ≠ [] ∧ fieldType.jsonTag ≠ str "-"

/-- The wire name of a json tag: what stands before its first comma. -/
def wireName (tag : GoString) : GoString := (stringsSplit 44 tag).headD []

/-- The json tag carries the option `omitempty` after its name. -/
def CarriesOmitEmpty (tag : GoString) : Prop := str "omitempty" ∈ (stringsSplit 44 tag).drop 1

/-- What one field contributes to a multi-part body, as the claim states it:
nothing when it has no wire name or when its tag carries `omitempty` and its
value is empty, and otherwise exactly one part named by its wire name. -/
def FieldEmitsAsClaimed (field : StructField × Value) (parts : List Part) : Prop :=
  (¬ HasWireName field.1 → parts = []) ∧
  (HasWireName field.1 →
    (CarriesOmitEmpty field.1.jsonTag ∧ IsEmptyValue field.2 → parts = []) ∧
    (¬ (CarriesOmitEmpty field.1.jsonTag ∧ IsEmptyValue field.2) →
      ∃ p, parts = [p] ∧ p.name = wireName field.1.jsonTag))

/-- What one field contributes to a multi-part body: nothing when it has no
wire name, when its tag carries `omitempty` and its value is empty, or when
its value is a nil interface, and otherwise exactly one part named by its wire
name. -/
def FieldEmits (field : StructField × Value) (parts : List Part) : Prop :=
  (¬ HasWireName field.1 → parts = []) ∧
  (HasWireName field.1 →
    (CarriesOmitEmpty field.1.jsonTag ∧ IsEmptyValue field.2 → parts = []) ∧
    (field.2 = .iface none → parts = []) ∧
    (¬ (CarriesOmitEmpty field.1.jsonTag ∧ IsEmptyValue field.2) → field.2 ≠ .iface none →
      ∃ p, parts = [p] ∧ p.name = wireName field.1.jsonTag))

/-- A codec for the examples: every float prints as `0.000000` and every
composite value marshals to `null`. -/
def sampleCodec : Codec :=
  ⟨fun _ => str "0.000000", fun _ => .ok (str "null")⟩

/-- A file to upload named `a.png` with the content `PNG`. -/
def sampleUpload : InputFileUpload := ⟨str "a.png", some ⟨str "PNG", false⟩⟩

/-- A request struct in the manner of `SendPhotoParams`: a chat identifier, a
photo held in a field of interface type, and an optional caption. -/
def photoParams (photo : Option Value) (caption : GoString) : Value :=
  .struct [(⟨str "ChatID", true, str "chat_id"⟩, .int .Int64 5),
    (⟨str "Photo", true, str "photo"⟩, .iface photo),
    (⟨str "Caption", true, str "caption,omitempty"⟩, .string caption)]

/-- A request struct in the manner of `sendMediaGroup`: the uploads sit in the
elements of a slice. -/
def mediaGroupParams : Value :=
  .struct [(⟨str "ChatID", true, str "chat_id"⟩, .int .Int64 5),
    (⟨str "Media", true, str "media"⟩,
      .slice (some [.struct [(⟨str "Media", true, str "media"⟩,
        .iface (some (.uploadPtr (some sampleUpload))))]]))]

/-! ## bot.go and polling.go: registration -/

/-- The method `Use`. -/
def GramGoBot.Use {σ : Type} (b : GramGoBot σ) (middleware : List (MiddlewareFunc σ)) :
    GramGoBot σ :=
  ⟨b.middleware ++ middleware, b.handlers⟩

/-- The statement `b.handlers[kind] = append(b.handlers[kind], newHandler(handler, middleware...))`
shared by the registration methods; a missing key reads as the nil slice. -/
def GramGoBot.register {σ : Type} (b : GramGoBot σ) (kind : GoString) (handler : HandlerFunc σ)
    (middleware : List (MiddlewareFunc σ)) : GramGoBot σ :=
  ⟨b.middleware,
    Function.update b.handlers kind
      (some ((b.handlers kind).getD [] ++ [newHandler handler middleware]))⟩

/-- The method `OnMessage`. -/
def GramGoBot.OnMessage {σ : Type} (b : GramGoBot σ) (handler : HandlerFunc σ)
    (middleware : List (MiddlewareFunc σ)) : GramGoBot σ :=
  b.register (str "message") handler middleware

/-- The method `OnCallbackQuery`. -/
def GramGoBot.OnCallbackQuery {σ : Type} (b : GramGoBot σ) (handler : HandlerFunc σ)
    (middleware : List (MiddlewareFunc σ)) : GramGoBot σ :=
  b.register (str "callback_query") handler middleware

/-- The method `OnInlineQuery`. -/
def GramGoBot.OnInlineQuery {σ : Type} (b : GramGoBot σ) (handler : HandlerFunc σ)
    (middleware : List (MiddlewareFunc σ)) : GramGoBot σ :=
  b.register (str "inline_query") handler middleware

/-- The closure `wrappedHandler` of `OnCommand`. When the slice in
`FilterCommand` faults, the fault unwinds the dispatch; what the callers then
see is left open as the parameter `onFault`. -/
def wrappedHandler {σ : Type} (onFault : HandlerFunc σ) (command : GoString)
    (handler : HandlerFunc σ) : HandlerFunc σ := fun ctx w =>
  match FilterCommand command ctx.Update with
  | some true => handler ctx w
  | some false => (none, w)
  | none => onFault ctx w

/-- The method `OnCommand`; for `onFault` see `wrappedHandler`. -/
def GramGoBot.OnCommand {σ : Type} (b : GramGoBot σ) (onFault : HandlerFunc σ)
    (command : GoString) (handler : HandlerFunc σ) (middleware : List (MiddlewareFunc σ)) :
    GramGoBot σ :=
  b.OnMessage (wrappedHandler onFault command handler) middleware

/-- A bot without middleware and without registration, as `NewBot` makes it. -/
def emptyBot (σ : Type) : GramGoBot σ := ⟨[], fun _ => none⟩

/-! ## polling.go: the configuration and the loop -/

/-- The Go type `PollingConfig`; a nil `AllowedUpdates` is `none`. -/
structure PollingConfig where
  Timeout : Int
  Limit : Int
  AllowedUpdates : Option (List GoString)
  DropPending : Bool
deriving DecidableEq, Repr

/-- The Go type `GetUpdatesParams`. -/
structure GetUpdatesParams where
  Offset : Int
  Limit : Int
  Timeout : Int
  AllowedUpdates : Option (List GoString)
deriving DecidableEq, Repr

/-- The configuration that `StartPolling` works with: the defaults, overridden
field by field by the first configuration passed, if any. -/
def pollingConfig (configs : List PollingConfig) : PollingConfig :=
  let config : PollingConfig := ⟨60, 100, none, false⟩
  match configs with
  | [] => config
  | userConfig :: _ =>
    ⟨if userConfig.Timeout > 0 then userConfig.Timeout else config.Timeout,
     if userConfig.Limit > 0 then userConfig.Limit else config.Limit,
     if userConfig.AllowedUpdates ≠ none then userConfig.AllowedUpdates
       else config.AllowedUpdates,
     userConfig.DropPending⟩

/-- The parameters of the one fetch of `dropPendingUpdates`. -/
def dropPendingParams : GetUpdatesParams := ⟨-1, 1, 1, none⟩

/-- The loop of `StartPolling`, run for as many iterations as there are answers
of the platform before the stop signal: each iteration sends `getUpdates` with
the current cursor and the configured limit, timeout and kinds, then goes
through `pollStep`. The result lists the parameters sent, in order. -/
def pollLoop {τ : Type} (config : PollingConfig) (spawn : Update → τ → τ) :
    List (Except GoError (List Update)) → Int × τ → List GetUpdatesParams × (Int × τ)
  | [], st => ([], st)
  | fetched :: rest, st =>
    let params : GetUpdatesParams :=
      ⟨st.1, config.Limit, config.Timeout, config.AllowedUpdates⟩
    let r := pollLoop config spawn rest (pollStep spawn fetched st)
    (params :: r.1, r.2)

/-- The method `StartPolling`, for the answers `fetches` that the platform
gives to the successive fetches of the loop before the stop signal. The result
is the error of a bot that is already running, or the parameters of the fetch
that drops the pending updates (if asked for), the parameters of the fetches of
the loop, and the final cursor and rest of the program. -/
def StartPolling {τ : Type} (isRunning : Bool) (configs : List PollingConfig)
    (spawn : Update → τ → τ) (fetches : List (Except GoError (List Update))) (t : τ) :
    Except GoError (List GetUpdatesParams × List GetUpdatesParams × (Int × τ)) :=
  if isRunning then .error (.plain (str "bot is already running"))
  else
    let config := pollingConfig configs
    let dropped := if config.DropPending then [dropPendingParams] else []
    let r := pollLoop config spawn fetches (0, t)
    .ok (dropped, r.1, r.2)

/-! ## errors.go: the message of an API error -/

/-- The method `APIError.Error`. -/
def APIError.Error (e : APIError) : GoString :=
  match e.Parameters with
  | some params =>
    if params.RetryAfter > 0 then
      str "telegram api error " ++ fmtInt e.Code ++ str ": " ++ e.Description
        ++ str " (retry after " ++ fmtInt params.RetryAfter ++ str " seconds)"
    else if params.MigrateToChatID ≠ 0 then
      str "telegram api error " ++ fmtInt e.Code ++ str ": " ++ e.Description
        ++ str " (migrate to chat id: " ++ fmtInt params.MigrateToChatID ++ str ")"
    else str "telegram api error " ++ fmtInt e.Code ++ str ": " ++ e.Description
  | none => str "telegram api error " ++ fmtInt e.Code ++ str ": " ++ e.Description

/-- The message of an API error without hint. -/
def baseMessage (e : APIError) : GoString :=
  str "telegram api error " ++ fmtInt e.Code ++ str ": " ++ e.Description

/-- The retry-after hint of a message. -/
def retryHint (seconds : Int) : GoString :=
  str " (retry after " ++ fmtInt seconds ++ str " seconds)"

/-- The migrate-to-chat-id hint of a message. -/
def migrateHint (chatID : Int) : GoString :=
  str " (migrate to chat id: " ++ fmtInt chatID ++ str ")"

/-! ## The notions of the specification for routing and encoding -/

/-- The kind of an update as the specification states it: the first populated
kind in the order message, edited message, channel post, callback query,
inline query, and `other` when none is populated. -/
def firstPopulatedKind (update : Update) : GoString :=
  match [(str "message", update.Message.isSome),
      (str "edited_message", update.EditedMessage.isSome),
      (str "channel_post", update.ChannelPost.isSome),
      (str "callback_query", update.CallbackQuery.isSome),
      (str "inline_query", update.InlineQuery.isSome)].find? (fun kind => kind.2) with
  | some kind => kind.1
  | none => str "other"

/-- The world after the handlers have run one after the other on the context,
when every one of them returns success; `none` when one of them fails. -/
def allSucceed {σ : Type} : List (handler σ) → Context → σ → Option σ
  | [], _, w => some w
  | h :: rest, ctx, w =>
    match h.handle ctx w with
    | (some _, _) => none
    | (none, w') => allSucceed rest ctx w'

/-- The serialization with one leading and one trailing double quote removed
when it is surrounded by a pair of them, and unchanged otherwise. -/
def unwrapOnePair (data : GoString) : GoString :=
  if 2 ≤ data.length ∧ data.head? = some 34 ∧ data.getLast? = some 34 then
    (data.drop 1).dropLast
  else data

/-- The text of a JSON string as `json.Marshal` writes it, for content without
control, HTML or non-ASCII characters: quotes and backslashes are escaped and
the whole is put between double quotes. -/
def jsonQuote (s : GoString) : GoString :=
  [34] ++ s.flatMap (fun c => if c = 34 ∨ c = 92 then [92, c] else [c]) ++ [34]

/-- A codec for the examples that marshals a pointer to a string as
`jsonQuote` and every other value to `null`. -/
def quotingCodec : Codec :=
  ⟨fun _ => str "0.000000",
   fun v =>
     match v with
     | .ptr (some (.string s)) => .ok (jsonQuote s)
     | _ => .ok (str "null")⟩

/-- A terminal handler that records `name` and fails when `fails` is set. -/
def recordHandler (name : String) (fails : Bool) : HandlerFunc (List String) :=
  fun _ w => (if fails then some (.plain (str name)) else none, w ++ [name])

/-- An update with both a message and a callback query populated. -/
def messageAndCallbackUpdate : Update :=
  ⟨1, some ⟨some ⟨42⟩, str "hi", []⟩, none, none, some ⟨⟨42⟩⟩, none⟩

/-- A middleware that counts the updates it is entered for. -/
def countingMiddleware : MiddlewareFunc Nat := fun next ctx n => next ctx (n + 1)

/-! ## Theorems -/

/-! ### Polling cursor -/

theorem wrapInt64_of_inRange (x : Int) (hlo : -2 ^ 63 ≤ x) (hhi : x < 2 ^ 63) :
    wrapInt64 x = x := by
  unfold wrapInt64
  rw [Int.emod_eq_of_lt (by omega) (by omega)]
  omega

theorem batchLoop_fst_of_getLast {τ : Type} (spawn : Update → τ → τ) (batch : List Update)
    (st : Int × τ) (last : Update) (hlast : batch.getLast? = some last) :
    (batchLoop spawn batch st).1 = wrapInt64 (last.ID + 1) := by
  induction batch generalizing st with
  | nil => simp at hlast
  | cons u rest ih =>
    obtain ⟨offset, t⟩ := st
    cases rest with
    | nil =>
      simp at hlast
      subst hlast
      simp [batchLoop]
    | cons v rest2 =>
      rw [List.getLast?_cons_cons] at hlast
      simp only [batchLoop]
      have := ih (wrapInt64 (u.ID + 1), spawn u t) hlast
      simpa [batchLoop] using this

theorem le_last_of_pairwise (batch : List Update) (last : Update)
    (hlast : batch.getLast? = some last)
    (hsorted : batch.Pairwise (fun a b => a.ID ≤ b.ID)) :
    ∀ u ∈ batch, u.ID ≤ last.ID := by
  induction batch with
  | nil => simp at hlast
  | cons a rest ih =>
    cases rest with
    | nil =>
      simp at hlast
      subst hlast
      intro u hu
      simp at hu
      subst hu
      exact le_refl _
    | cons v rest2 =>
      rw [List.getLast?_cons_cons] at hlast
      rw [List.pairwise_cons] at hsorted
      have hmem : last ∈ v :: rest2 := List.mem_of_getLast?_eq_some hlast
      intro u hu
      rcases List.mem_cons.1 hu with rfl | hu
      · exact hsorted.1 last hmem
      · exact ih hlast hsorted.2 u hu

/-- C1, as the claim states it, fails: for the fetched batch with IDs 5 then 3
the maximum ID is 5, yet the cursor after the batch loop is 4, not 6. -/
theorem C1_cursor_not_max_counterexample :
    ¬ (∀ (batch : List Update) (m offset : Int), batch ≠ [] → IsMaxID m batch →
        (pollStep (fun _ (t : Unit) => t) (.ok batch) (offset, ())).1 = m + 1) := by
  intro h
  have h1 := h [updateWithID 5, updateWithID 3] 5 0 (by simp)
    ⟨⟨updateWithID 5, by simp, rfl⟩, by
      intro u hu
      simp at hu
      rcases hu with rfl | rfl <;> simp [updateWithID]⟩
  revert h1
  simp [pollStep, batchLoop, updateWithID, wrapInt64]

/-- C1 (amended): after the batch loop of `StartPolling` over a non-empty batch
returned by a successful fetch, the cursor is the ID of the last update of the
batch plus one, in `int64` arithmetic, whatever the spawned dispatches do; when
the IDs of the batch are in non-decreasing order and the maximum ID `m` is such
that `m + 1` fits in an `int64`, this is `m + 1`. -/
theorem C1_cursor_after_batch {τ : Type} (spawn : Update → τ → τ) (batch : List Update)
    (st : Int × τ) (last : Update) (hlast : batch.getLast? = some last) :
    (pollStep spawn (.ok batch) st).1 = wrapInt64 (last.ID + 1) ∧
    (∀ m : Int, IsMaxID m batch → batch.Pairwise (fun a b => a.ID ≤ b.ID) →
      -2 ^ 63 ≤ m + 1 → m + 1 < 2 ^ 63 → (pollStep spawn (.ok batch) st).1 = m + 1) := by
  simp only [pollStep]
  refine ⟨batchLoop_fst_of_getLast spawn batch st last hlast, ?_⟩
  intro m hmax hsorted hlo hhi
  rw [batchLoop_fst_of_getLast spawn batch st last hlast]
  obtain ⟨⟨u, hu, hum⟩, hle⟩ := hmax
  have h1 : u.ID ≤ last.ID := le_last_of_pairwise batch last hlast hsorted u hu
  have h2 : last.ID ≤ m := hle last (List.mem_of_getLast?_eq_some hlast)
  have h3 : last.ID = m := by omega
  rw [h3]
  exact wrapInt64_of_inRange _ hlo hhi

/-- Witness of C1 (amended): the fetched batch with IDs 3, 5, 9 moves the
cursor from 0 to 10. -/
theorem C1_cursor_after_batch_witness :
    (pollStep (fun _ (t : Unit) => t)
        (.ok [updateWithID 3, updateWithID 5, updateWithID 9]) (0, ())).1 = 10 :=
  (C1_cursor_after_batch (fun _ (t : Unit) => t)
      [updateWithID 3, updateWithID 5, updateWithID 9] (0, ()) (updateWithID 9) rfl).2 9
    ⟨⟨updateWithID 9, by simp, rfl⟩, by
      intro u hu
      simp at hu
      rcases hu with rfl | rfl | rfl <;> simp [updateWithID]⟩
    (by simp [updateWithID]) (by norm_num) (by norm_num)

/-! ### The command filter -/

theorem sliceTo_eq_some (s : GoString) (n : Int) (cmd : GoString)
    (h : sliceTo s n = some cmd) : 0 ≤ n ∧ n ≤ (s.length : Int) ∧ cmd = s.take n.toNat := by
  unfold sliceTo at h
  split at h
  · rename_i hn
    simp at h
    exact ⟨hn.1, hn.2, h.symm⟩
  · simp at h

/-- C2: evaluation of the code at the failing input. For the command `start`
the text `/start` tagged as a command over its 6 bytes is accepted, but the
text `/start@somebot` tagged as a command over its 14 bytes is rejected: the
filter compares the covered text with `/start@` instead of testing that
prefix. -/
theorem C2_command_with_suffix_rejected :
    FilterCommand (str "start") (commandUpdate (str "/start") 6) = some true ∧
    FilterCommand (str "start") (commandUpdate (str "/start@somebot") 14) = some false ∧
    FilterCommand (str "start") (commandUpdate (str "/start@") 7) = some true := by
  refine ⟨?_, ?_, ?_⟩ <;> decide

/-- C3: whenever `FilterCommand(c)` returns true on an update, the update has a
message with non-empty text and at least one entity, the first entity is a
`bot_command` at offset 0 whose length lies within the text, and the text it
covers is `/c` or `/c@suffix`. Updates without a message, without text,
without entities, or whose first entity is not a command at offset 0 are
rejected; for `c = start` the texts `/started` and `start` are rejected. -/
theorem C3_command_filter_sound (command : GoString) (update : Update) :
    (FilterCommand command update = some true →
      ∃ (msg : Message) (entity : MessageEntity) (rest : List MessageEntity) (cmd : GoString),
        update.Message = some msg ∧ msg.Text ≠ [] ∧ msg.Entities = entity :: rest ∧
        entity.Type_ = str "bot_command" ∧ entity.Offset = 0 ∧
        0 ≤ entity.Length ∧ entity.Length ≤ (msg.Text.length : Int) ∧
        cmd = msg.Text.take entity.Length.toNat ∧
        (cmd = str "/" ++ command ∨ ∃ suffix, cmd = str "/" ++ command ++ str "@" ++ suffix)) ∧
    (update.Message = none → FilterCommand command update = some false) ∧
    (∀ msg, update.Message = some msg → msg.Text = [] →
      FilterCommand command update = some false) ∧
    (∀ msg, update.Message = some msg → msg.Entities = [] →
      FilterCommand command update = some false) ∧
    (∀ msg entity rest, update.Message = some msg → msg.Entities = entity :: rest →
      (entity.Type_ ≠ str "bot_command" ∨ entity.Offset ≠ 0) →
      FilterCommand command update = some false) ∧
    FilterCommand (str "start") (commandUpdate (str "/started") 8) = some false ∧
    FilterCommand (str "start") (commandUpdate (str "start") 5) = some false ∧
    FilterCommand (str "start") (textUpdate (str "/start") []) = some false ∧
    FilterCommand (str "start") (textUpdate (str "/start") [⟨str "bold", 0, 6⟩]) = some false ∧
    FilterCommand (str "start") (textUpdate (str "a /start") [⟨str "bot_command", 2, 6⟩])
      = some false := by
  refine ⟨?_, ?_, ?_, ?_, ?_, by decide, by decide, by decide, by decide, by decide⟩
  · intro h
    unfold FilterCommand at h
    cases hm : update.Message with
    | none => simp [hm] at h
    | some msg =>
      simp only [hm] at h
      by_cases ht : msg.Text = []
      · simp [ht] at h
      · rw [if_neg ht] at h
        cases he : msg.Entities with
        | nil => simp [he] at h
        | cons entity rest =>
          simp only [he] at h
          by_cases hc : entity.Type_ ≠ str "bot_command" ∨ entity.Offset ≠ 0
          · simp [hc] at h
          · rw [if_neg hc] at h
            have hc2 : entity.Type_ = str "bot_command" ∧ entity.Offset = 0 := by
              constructor
              · by_contra hne
                exact hc (Or.inl hne)
              · by_contra hne
                exact hc (Or.inr hne)
            cases hs : sliceTo msg.Text entity.Length with
            | none => simp [hs] at h
            | some cmd =>
              simp only [hs, Option.some.injEq, Bool.or_eq_true, beq_iff_eq] at h
              obtain ⟨h0, h1, h2⟩ := sliceTo_eq_some _ _ _ hs
              refine ⟨msg, entity, rest, cmd, rfl, ht, he, hc2.1, hc2.2, h0, h1, h2, ?_⟩
              rcases h with h | h
              · exact Or.inl h
              · exact Or.inr ⟨[], by simpa using h⟩
  · intro hm
    simp [FilterCommand, hm]
  · intro msg hm ht
    simp [FilterCommand, hm, ht]
  · intro msg hm he
    simp only [FilterCommand, hm, he]
    split <;> rfl
  · intro msg entity rest hm he hc
    simp only [FilterCommand, hm, he]
    split
    · rfl
    · simp [hc]

/-- Witness of C3: the update with text `/start`, tagged as a command over its
6 bytes, is accepted for `start`, and the text covered is `/start`. -/
theorem C3_command_filter_sound_witness :
    ∃ (msg : Message) (entity : MessageEntity) (rest : List MessageEntity) (cmd : GoString),
      (commandUpdate (str "/start") 6).Message = some msg ∧ msg.Text ≠ [] ∧
      msg.Entities = entity :: rest ∧
      entity.Type_ = str "bot_command" ∧ entity.Offset = 0 ∧
      0 ≤ entity.Length ∧ entity.Length ≤ (msg.Text.length : Int) ∧
      cmd = msg.Text.take entity.Length.toNat ∧
      (cmd = str "/" ++ str "start" ∨
        ∃ suffix, cmd = str "/" ++ str "start" ++ str "@" ++ suffix) :=
  (C3_command_filter_sound (str "start") (commandUpdate (str "/start") 6)).1 (by decide)

/-! ### Middleware chains -/

theorem wrapLoop_eq_foldr_take {σ : Type} (ms : List (MiddlewareFunc σ)) (n : Nat)
    (hn : n ≤ ms.length) (final : HandlerFunc σ) :
    wrapLoop ms n (ms.drop n |>.foldr (fun m f => m f) final)
      = ms.foldr (fun m f => m f) final := by
  induction n with
  | zero => simp [wrapLoop]
  | succ i ih =>
    have hi : i < ms.length := hn
    have hget : ms.get? i = some (ms.get ⟨i, hi⟩) := List.get?_eq_get hi
    rw [wrapLoop, hget]
    simp only
    have hdrop : ms.drop i = ms.get ⟨i, hi⟩ :: ms.drop (i + 1) := by
      simp
    have := ih (Nat.le_of_lt hi)
    rw [hdrop, List.foldr_cons] at this
    exact this

theorem wrapLoop_length {σ : Type} (ms : List (MiddlewareFunc σ)) (final : HandlerFunc σ) :
    wrapLoop ms ms.length final = ms.foldr (fun m f => m f) final := by
  have := wrapLoop_eq_foldr_take ms ms.length (le_refl _) final
  simpa using this

/-- C4: `handler.handle` runs `m1 (m2 (... (mn H)))` for the handler `H` and
the per-registration middleware `[m1, ..., mn]`, and `handleUpdate` runs the
same nesting of the bot-level middleware around its terminal handler
`routeUpdate`, which for a bot whose only registration is `H` for messages is
`H` on every message update; with an empty list the handler itself is run; with the tracing
middleware `[A, B]` the events are A-before, B-before, H, B-after, A-after, on
both paths. -/
theorem C4_middleware_order {σ : Type} (H : HandlerFunc σ) (ms : List (MiddlewareFunc σ))
    (b : GramGoBot σ) (update : Update) (ctx : Context) (w : σ) :
    (newHandler H ms).handle ctx w = (ms.foldr (fun m f => m f) H) ctx w ∧
    handleUpdate b update w
      = (b.middleware.foldr (fun m f => m f) (routeUpdate b)) (newContext update) w ∧
    (newHandler H []).handle ctx w = H ctx w ∧
    (∀ (c : Context) (w2 : σ), c.Update.Message.isSome = true →
      routeUpdate (botWith ms H) c w2 = H c w2) ∧
    handleUpdate (botWith [] H) (textUpdate (str "hi") []) w
      = H (newContext (textUpdate (str "hi") [])) w ∧
    (newHandler traceHandler [traceMiddleware "A", traceMiddleware "B"]).handle ctx []
      = (none, ["A-before", "B-before", "H", "B-after", "A-after"]) ∧
    handleUpdate (botWith [traceMiddleware "A", traceMiddleware "B"] traceHandler)
        (textUpdate (str "hi") []) []
      = (none, ["A-before", "B-before", "H", "B-after", "A-after"]) := by
  refine ⟨?_, ?_, ?_, ?_, ?_, ?_, ?_⟩
  · simp [handler.handle, newHandler, wrapLoop_length]
  · simp [handleUpdate, wrapLoop_length]
  · simp [handler.handle, newHandler, wrapLoop]
  · intro c w2 hc
    have hk : handlerType c.Update = str "message" := by simp [handlerType, hc]
    simp only [routeUpdate, botWith, hk, if_true, runHandlers, handler.handle, newHandler,
      List.length_nil, wrapLoop]
    cases H c w2 with
    | mk e w3 => cases e <;> rfl
  · have hk : handlerType (textUpdate (str "hi") []) = str "message" := by decide
    simp [handleUpdate, wrapLoop, routeUpdate, botWith, newContext, hk, runHandlers,
      handler.handle, newHandler]
    cases H ⟨textUpdate (str "hi") []⟩ w with
    | mk e w' => cases e <;> rfl
  · rfl
  · have hk : handlerType (textUpdate (str "hi") []) = str "message" := by decide
    simp [handleUpdate, wrapLoop, routeUpdate, botWith, newContext, hk, runHandlers,
      handler.handle, newHandler, traceMiddleware, traceHandler]

/-- Witness of C4: for the bot whose only registration is the tracing handler
for messages, `routeUpdate` on a message update records `H`. -/
theorem C4_middleware_order_witness :
    routeUpdate (botWith [traceMiddleware "A"] traceHandler)
        (newContext (textUpdate (str "hi") [])) []
      = (none, ["H"]) :=
  (C4_middleware_order traceHandler [traceMiddleware "A"]
    (botWith [] traceHandler) (textUpdate (str "hi") [])
    (newContext (textUpdate (str "hi") [])) []).2.2.2.1
    (newContext (textUpdate (str "hi") [])) [] rfl

/-! ### Error classification -/

theorem handleAPIError_eq (method : GoString) (resp : APIResponse) :
    ∃ e : APIError, handleAPIError method resp = GoError.api (some e) ∧
      e.Code = resp.ErrorCode ∧ e.Parameters = resp.Parameters := by
  unfold handleAPIError
  simp only
  split_ifs <;> exact ⟨_, rfl, rfl, rfl⟩

theorem errorsAsAPIError_of_not_api (err : GoError) (h : ¬ IsAPIError err) :
    errorsAsAPIError err = none := by
  induction err with
  | api e => exact absurd trivial h
  | plain msg => rfl
  | wrap msg cause ih => exact ih h

/-- C7: the error built by `handleAPIError` is a non-nil `*APIError` that
carries the `error_code` of the envelope unchanged, and `IsRetryableError`
holds of it exactly when the code is 429 or at least 500 (true for 429, false
for 400); `IsRetryableError` is false for the nil error and for every error
with no `*APIError` in its chain. -/
theorem C7_retryable_classification (method : GoString) (resp : APIResponse)
    (err : GoError) :
    (∃ e : APIError, handleAPIError method resp = GoError.api (some e) ∧
      e.Code = resp.ErrorCode) ∧
    (IsRetryableError (some (handleAPIError method resp)) = some true ↔
      (resp.ErrorCode = 429 ∨ resp.ErrorCode ≥ 500)) ∧
    (IsRetryableError (some (handleAPIError method resp)) = some false ↔
      ¬ (resp.ErrorCode = 429 ∨ resp.ErrorCode ≥ 500)) ∧
    IsRetryableError (some (handleAPIError (str "sendMessage")
      ⟨false, [], 429, str "Too Many Requests", some ⟨5, 0⟩⟩)) = some true ∧
    IsRetryableError (some (handleAPIError (str "sendMessage")
      ⟨false, [], 400, str "Bad Request", none⟩)) = some false ∧
    (¬ IsAPIError err → IsRetryableError (some err) = some false) ∧
    IsRetryableError none = some false := by
  obtain ⟨e, he, hcode, -⟩ := handleAPIError_eq method resp
  refine ⟨⟨e, he, hcode⟩, ?_, ?_, by decide, by decide, ?_, rfl⟩
  · simp [IsRetryableError, he, errorsAsAPIError, hcode]
  · simp only [IsRetryableError, he, errorsAsAPIError, hcode, Option.some_bind,
      Option.some.injEq]
    by_cases h1 : resp.ErrorCode = 429 <;> by_cases h2 : resp.ErrorCode ≥ 500 <;>
      simp [h1, h2]
  · intro h
    simp [IsRetryableError, errorsAsAPIError_of_not_api err h]

/-- Witness of C7: an error made by `errors.New` is not retryable. -/
theorem C7_retryable_classification_witness :
    IsRetryableError (some (GoError.plain (str "connection refused"))) = some false :=
  (C7_retryable_classification (str "getMe") ⟨false, [], 500, [], none⟩
    (GoError.plain (str "connection refused"))).2.2.2.2.2.1 (fun h => h)

/-- C8: `GetRetryAfter` of the error built by `handleAPIError` is the
`retry_after_seconds` of the envelope when the envelope has hint parameters and
0 when it has none (5 for code 429 with a hint of 5 seconds); it is 0 for the
nil error and for every error with no `*APIError` in its chain. -/
theorem C8_retry_after_exposed (method : GoString) (resp : APIResponse) (err : GoError) :
    (∀ params, resp.Parameters = some params →
      GetRetryAfter (some (handleAPIError method resp)) = some params.RetryAfter) ∧
    (resp.Parameters = none →
      GetRetryAfter (some (handleAPIError method resp)) = some 0) ∧
    GetRetryAfter (some (handleAPIError (str "sendMessage")
      ⟨false, [], 429, str "Too Many Requests", some ⟨5, 0⟩⟩)) = some 5 ∧
    (¬ IsAPIError err → GetRetryAfter (some err) = some 0) ∧
    GetRetryAfter none = some 0 := by
  obtain ⟨e, he, -, hparams⟩ := handleAPIError_eq method resp
  refine ⟨?_, ?_, by decide, ?_, rfl⟩
  · intro params hp
    simp [GetRetryAfter, he, errorsAsAPIError, hparams, hp]
  · intro hp
    simp [GetRetryAfter, he, errorsAsAPIError, hparams, hp]
  · intro h
    simp [GetRetryAfter, errorsAsAPIError_of_not_api err h]

/-- Witness of C8: the envelope with code 429 and a hint of 5 seconds. -/
theorem C8_retry_after_exposed_witness :
    GetRetryAfter (some (handleAPIError (str "sendMessage")
      ⟨false, [], 429, str "Too Many Requests", some ⟨5, 0⟩⟩)) = some 5 :=
  (C8_retry_after_exposed (str "sendMessage")
    ⟨false, [], 429, str "Too Many Requests", some ⟨5, 0⟩⟩
    (GoError.plain [])).1 ⟨5, 0⟩ rfl

/-! ### The rate limiter -/

theorem RateLimit_open {σ : Type} (maxRequests duration : Int) (next : HandlerFunc σ)
    (ctx : Context) (now : Int) (limits : Limits) (w : σ)
    (huid : rateLimitUserID ctx.Update ≠ 0)
    (hopen : limits (rateLimitUserID ctx.Update) = none ∨
      ∃ l, limits (rateLimitUserID ctx.Update) = some l ∧ now > l.resetTime) :
    RateLimit maxRequests duration next ctx now limits w
      = ((next ctx w).1,
         Function.update limits (rateLimitUserID ctx.Update)
           (some ⟨1, now + duration⟩),
         (next ctx w).2) := by
  unfold RateLimit
  simp only [if_neg huid]
  rcases hopen with h | ⟨l, h, hl⟩
  · simp only [h]
  · simp only [h, if_pos hl]

theorem RateLimit_full {σ : Type} (maxRequests duration : Int) (next : HandlerFunc σ)
    (ctx : Context) (now : Int) (limits : Limits) (w : σ) (l : userLimit)
    (huid : rateLimitUserID ctx.Update ≠ 0)
    (hl : limits (rateLimitUserID ctx.Update) = some l) (hnow : now ≤ l.resetTime)
    (hfull : l.count ≥ maxRequests) :
    RateLimit maxRequests duration next ctx now limits w = (none, limits, w) := by
  unfold RateLimit
  simp only [if_neg huid, hl, if_neg (not_lt.2 hnow), if_pos hfull]

theorem RateLimit_below {σ : Type} (maxRequests duration : Int) (next : HandlerFunc σ)
    (ctx : Context) (now : Int) (limits : Limits) (w : σ) (l : userLimit)
    (huid : rateLimitUserID ctx.Update ≠ 0)
    (hl : limits (rateLimitUserID ctx.Update) = some l) (hnow : now ≤ l.resetTime)
    (hbelow : l.count < maxRequests) :
    RateLimit maxRequests duration next ctx now limits w
      = ((next ctx w).1,
         Function.update limits (rateLimitUserID ctx.Update)
           (some ⟨l.count + 1, l.resetTime⟩),
         (next ctx w).2) := by
  unfold RateLimit
  simp only [if_neg huid, hl, if_neg (not_lt.2 hnow), if_neg (not_le.2 hbelow)]

theorem runCalls_in_window {σ : Type} (maxRequests duration : Int) (next : HandlerFunc σ)
    (uid : Int) (huid : uid ≠ 0) (reset : Int) (calls : List (Context × Int)) :
    ∀ (limits : Limits) (w : σ) (count : Int),
      (∀ c ∈ calls, rateLimitUserID c.1.Update = uid) →
      (∀ c ∈ calls, c.2 ≤ reset) →
      limits uid = some ⟨count, reset⟩ → count ≤ maxRequests →
      ((runCalls maxRequests duration next calls limits w).1,
        (runCalls maxRequests duration next calls limits w).2.2)
          = firstAllowed next (maxRequests - count).toNat (calls.map Prod.fst) w ∧
      (runCalls maxRequests duration next calls limits w).2.1 uid
          = some ⟨min (count + calls.length) maxRequests, reset⟩ := by
  induction calls with
  | nil =>
    intro limits w count _ _ hl hc
    simp [runCalls, firstAllowed, hl, hc]
  | cons c rest ih =>
    intro limits w count hid hin hl hc
    obtain ⟨ctx, now⟩ := c
    have hctx : rateLimitUserID ctx.Update = uid := hid (ctx, now) (List.mem_cons_self _ _)
    have hnow : now ≤ reset := hin (ctx, now) (List.mem_cons_self _ _)
    have hid2 : ∀ c ∈ rest, rateLimitUserID c.1.Update = uid :=
      fun c hc => hid c (List.mem_cons_of_mem _ hc)
    have hin2 : ∀ c ∈ rest, c.2 ≤ reset := fun c hc => hin c (List.mem_cons_of_mem _ hc)
    have huid2 : rateLimitUserID ctx.Update ≠ 0 := by rw [hctx]; exact huid
    have hl2 : limits (rateLimitUserID ctx.Update) = some ⟨count, reset⟩ := by rw [hctx]; exact hl
    by_cases hfull : count ≥ maxRequests
    · have hstep := RateLimit_full maxRequests duration next ctx now limits w ⟨count, reset⟩
        huid2 hl2 hnow hfull
      have heq : count = maxRequests := le_antisymm hc hfull
      obtain ⟨ih1, ih2⟩ := ih limits w count hid2 hin2 hl hc
      have hz : (maxRequests - count).toNat = 0 := by rw [heq]; simp
      rw [hz] at ih1
      simp only [runCalls, hstep, List.map_cons, hz, firstAllowed, List.length_cons]
      rw [Prod.ext_iff] at ih1
      simp only at ih1
      refine ⟨by rw [ih1.1, ih1.2], ?_⟩
      rw [ih2]
      congr 2
      rw [heq]
      simp
      omega
    · have hbelow : count < maxRequests := not_le.1 hfull
      have hstep := RateLimit_below maxRequests duration next ctx now limits w ⟨count, reset⟩
        huid2 hl2 hnow hbelow
      simp only at hstep
      have hl3 : Function.update limits (rateLimitUserID ctx.Update)
          (some ⟨count + 1, reset⟩) uid = some ⟨count + 1, reset⟩ := by
        rw [hctx]; simp
      obtain ⟨ih1, ih2⟩ := ih _ (next ctx w).2 (count + 1) hid2 hin2 hl3 (by omega)
      have hs : (maxRequests - count).toNat = (maxRequests - (count + 1)).toNat + 1 := by
        omega
      simp only [runCalls, hstep, List.map_cons, hs, firstAllowed, List.length_cons]
      rw [Prod.ext_iff] at ih1
      simp only at ih1
      refine ⟨by rw [ih1.1, ih1.2], ?_⟩
      rw [ih2]
      congr 2
      push_cast
      ring_nf

theorem RateLimit_identity_zero {σ : Type} (maxRequests duration : Int) (next : HandlerFunc σ)
    (ctx : Context) (now : Int) (limits : Limits) (w : σ)
    (hzero : rateLimitUserID ctx.Update = 0) :
    RateLimit maxRequests duration next ctx now limits w
      = ((next ctx w).1, limits, (next ctx w).2) := by
  simp [RateLimit, hzero]

theorem runCalls_identity_zero {σ : Type} (maxRequests duration : Int) (next : HandlerFunc σ)
    (calls : List (Context × Int)) :
    ∀ (limits : Limits) (w : σ), (∀ c ∈ calls, rateLimitUserID c.1.Update = 0) →
      ((runCalls maxRequests duration next calls limits w).1,
        (runCalls maxRequests duration next calls limits w).2.2)
          = firstAllowed next calls.length (calls.map Prod.fst) w ∧
      (runCalls maxRequests duration next calls limits w).2.1 = limits := by
  induction calls with
  | nil =>
    intro limits w _
    simp [runCalls, firstAllowed]
  | cons c rest ih =>
    intro limits w hid
    obtain ⟨ctx, now⟩ := c
    have hzero : rateLimitUserID ctx.Update = 0 := hid (ctx, now) (List.mem_cons_self _ _)
    have hstep := RateLimit_identity_zero maxRequests duration next ctx now limits w hzero
    obtain ⟨ih1, ih2⟩ := ih limits (next ctx w).2
      (fun c hc => hid c (List.mem_cons_of_mem _ hc))
    rw [Prod.ext_iff] at ih1
    simp only at ih1
    simp only [runCalls, hstep, List.map_cons, List.length_cons, firstAllowed]
    exact ⟨by rw [ih1.1, ih1.2], ih2⟩

/-- C9, as the claim states it for every identity, fails for the identity 0,
which `RateLimit` takes for "no sender": with `maxRequests = 1` two calls in
one window by the sender with ID 0 both reach the wrapped handler. -/
theorem C9_identity_zero_counterexample :
    ¬ (∀ (uid : Int) (first : Context × Int) (later : List (Context × Int)),
        (∀ c ∈ first :: later, rateLimitUserID c.1.Update = uid) →
        (∀ c ∈ later, c.2 ≤ first.2 + 10) →
        ((runCalls 1 10 countingHandler (first :: later) (fun _ => none) 0).1,
          (runCalls 1 10 countingHandler (first :: later) (fun _ => none) 0).2.2)
          = firstAllowed countingHandler 1 ((first :: later).map Prod.fst) 0) := by
  intro h
  have h1 := h 0 (ctxFromUser 0, 0) [(ctxFromUser 0, 1)] (by decide) (by decide)
  revert h1
  decide

/-- C9 (amended): for `maxRequests >= 1` and an identity other than 0, take a
call that opens a window (no record yet, or a clock reading strictly after the
recorded reset time) followed by calls of that identity none of which is
strictly after the new reset time. Exactly the first `maxRequests` of these
calls invoke the wrapped handler and return its result, every later one
returns success without invoking it, and the record ends with the count
`min(number of calls, maxRequests)` and the reset time set by the first call.
A call of that identity strictly after that reset time invokes the handler and
sets the record to count 1 and a new reset time. A sender whose ID is 0 is
never limited: every call with that identity invokes the wrapped handler,
returns its result and leaves the records alone, whatever the records and the
clock are, and so does every call of a run of such calls. -/
theorem C9_rate_limit_window {σ : Type} (maxRequests duration : Int) (next : HandlerFunc σ)
    (uid : Int) (first : Context × Int) (later : List (Context × Int))
    (limits : Limits) (w : σ)
    (hmax : 1 ≤ maxRequests) (huid : uid ≠ 0)
    (hid : ∀ c ∈ first :: later, rateLimitUserID c.1.Update = uid)
    (hopen : limits uid = none ∨ ∃ l, limits uid = some l ∧ first.2 > l.resetTime)
    (hin : ∀ c ∈ later, c.2 ≤ first.2 + duration) :
    ((runCalls maxRequests duration next (first :: later) limits w).1,
      (runCalls maxRequests duration next (first :: later) limits w).2.2)
        = firstAllowed next maxRequests.toNat ((first :: later).map Prod.fst) w ∧
    (runCalls maxRequests duration next (first :: later) limits w).2.1 uid
        = some ⟨min ((later.length : Int) + 1) maxRequests, first.2 + duration⟩ ∧
    (∀ (ctx : Context) (now : Int) (w2 : σ), rateLimitUserID ctx.Update = uid →
      now > first.2 + duration →
      RateLimit maxRequests duration next ctx now
          (runCalls maxRequests duration next (first :: later) limits w).2.1 w2
        = ((next ctx w2).1,
           Function.update (runCalls maxRequests duration next (first :: later) limits w).2.1
             uid (some ⟨1, now + duration⟩),
           (next ctx w2).2)) ∧
    (∀ (ctx : Context) (now : Int) (limits0 : Limits) (w2 : σ),
      rateLimitUserID ctx.Update = 0 →
      RateLimit maxRequests duration next ctx now limits0 w2
        = ((next ctx w2).1, limits0, (next ctx w2).2)) ∧
    (∀ (calls : List (Context × Int)) (limits0 : Limits) (w2 : σ),
      (∀ c ∈ calls, rateLimitUserID c.1.Update = 0) →
      ((runCalls maxRequests duration next calls limits0 w2).1,
        (runCalls maxRequests duration next calls limits0 w2).2.2)
          = firstAllowed next calls.length (calls.map Prod.fst) w2 ∧
      (runCalls maxRequests duration next calls limits0 w2).2.1 = limits0) := by
  obtain ⟨ctx0, t0⟩ := first
  have hctx : rateLimitUserID ctx0.Update = uid := hid (ctx0, t0) (List.mem_cons_self _ _)
  have hid2 : ∀ c ∈ later, rateLimitUserID c.1.Update = uid :=
    fun c hc => hid c (List.mem_cons_of_mem _ hc)
  have huid2 : rateLimitUserID ctx0.Update ≠ 0 := by rw [hctx]; exact huid
  have hstep := RateLimit_open maxRequests duration next ctx0 t0 limits w huid2
    (by rw [hctx]; exact hopen)
  have hl : Function.update limits (rateLimitUserID ctx0.Update)
      (some ⟨1, t0 + duration⟩) uid = some ⟨1, t0 + duration⟩ := by
    rw [hctx]; simp
  obtain ⟨r1, r2⟩ := runCalls_in_window maxRequests duration next uid huid (t0 + duration)
    later _ (next ctx0 w).2 1 hid2 hin hl hmax
  have hs : maxRequests.toNat = (maxRequests - 1).toNat + 1 := by omega
  have hrec : (runCalls maxRequests duration next ((ctx0, t0) :: later) limits w).2.1 uid
      = some ⟨min ((later.length : Int) + 1) maxRequests, t0 + duration⟩ := by
    simp only [runCalls, hstep]
    rw [r2, add_comm]
  refine ⟨?_, hrec, ?_,
    fun ctx now limits0 w2 hzero =>
      RateLimit_identity_zero maxRequests duration next ctx now limits0 w2 hzero,
    fun calls limits0 w2 hzero =>
      runCalls_identity_zero maxRequests duration next calls limits0 w2 hzero⟩
  · simp only [runCalls, hstep, List.map_cons, hs, firstAllowed]
    rw [Prod.ext_iff] at r1
    simp only at r1
    rw [r1.1, r1.2]
  · intro ctx now w2 hc hnow
    have h := RateLimit_open maxRequests duration next ctx now
      (runCalls maxRequests duration next ((ctx0, t0) :: later) limits w).2.1 w2
      (by rw [hc]; exact huid)
      (Or.inr ⟨_, by rw [hc]; exact hrec, hnow⟩)
    rw [hc] at h
    exact h

/-- Witness of C9 (amended): with `maxRequests = 2` and a window of 10, the
calls of user 42 at times 0, 1 and 2 are allowed, allowed and suppressed (the
handler has run twice), and a call at time 11 runs the handler again; three
calls of the sender with ID 0 inside one window all run the handler. -/
theorem C9_rate_limit_window_witness :
    ((runCalls 2 10 countingHandler
        [(ctxFromUser 42, 0), (ctxFromUser 42, 1), (ctxFromUser 42, 2)] (fun _ => none) 0).1,
      (runCalls 2 10 countingHandler
        [(ctxFromUser 42, 0), (ctxFromUser 42, 1), (ctxFromUser 42, 2)] (fun _ => none) 0).2.2)
      = ([none, none, none], 2) ∧
    (RateLimit 2 10 countingHandler (ctxFromUser 42) 11
        (runCalls 2 10 countingHandler
          [(ctxFromUser 42, 0), (ctxFromUser 42, 1), (ctxFromUser 42, 2)]
          (fun _ => none) 0).2.1 2).2.2 = 3 ∧
    ((runCalls 2 10 countingHandler
        [(ctxFromUser 0, 0), (ctxFromUser 0, 1), (ctxFromUser 0, 2)] (fun _ => none) 0).1,
      (runCalls 2 10 countingHandler
        [(ctxFromUser 0, 0), (ctxFromUser 0, 1), (ctxFromUser 0, 2)] (fun _ => none) 0).2.2)
      = ([none, none, none], 3) := by
  have h := C9_rate_limit_window 2 10 countingHandler 42 (ctxFromUser 42, 0)
    [(ctxFromUser 42, 1), (ctxFromUser 42, 2)] (fun _ => none) 0
    (by decide) (by decide) (by decide) (Or.inl rfl) (by decide)
  refine ⟨h.1.trans (by decide), ?_, ?_⟩
  · rw [h.2.2.1 (ctxFromUser 42) 11 2 (by decide) (by decide)]
    rfl
  · exact (h.2.2.2.2 [(ctxFromUser 0, 0), (ctxFromUser 0, 1), (ctxFromUser 0, 2)]
      (fun _ => none) 0 (by decide)).1.trans (by decide)

/-! ### The webhook endpoint -/

/-- C10: `WebhookHandler` replies 401 and dispatches nothing when the secret
is non-empty and the header differs from it; otherwise it replies 400 and
dispatches nothing when the body cannot be read or does not decode as an
update; otherwise it dispatches exactly the decoded update and replies 200.
With the secret `abc`: header `abc` and a valid body give 200 and one
dispatch, header `xyz` gives 401, an undecodable body gives 400. -/
theorem C10_webhook_replies (unmarshal : GoString → Option Update) (secretToken : GoString)
    (r : WebhookRequest) :
    (secretToken ≠ [] → r.secretHeader ≠ secretToken →
      (WebhookHandler unmarshal secretToken r).status = 401 ∧
      (WebhookHandler unmarshal secretToken r).dispatched = []) ∧
    (¬ (secretToken ≠ [] ∧ r.secretHeader ≠ secretToken) →
      (∀ e, r.body = .error e →
        (WebhookHandler unmarshal secretToken r).status = 400 ∧
        (WebhookHandler unmarshal secretToken r).dispatched = []) ∧
      (∀ body, r.body = .ok body → unmarshal body = none →
        (WebhookHandler unmarshal secretToken r).status = 400 ∧
        (WebhookHandler unmarshal secretToken r).dispatched = []) ∧
      (∀ body update, r.body = .ok body → unmarshal body = some update →
        (WebhookHandler unmarshal secretToken r).status = 200 ∧
        (WebhookHandler unmarshal secretToken r).dispatched = [update])) ∧
    WebhookHandler sampleUnmarshal (str "abc")
        ⟨str "abc", .ok (str "\x7b\"update_id\":7\x7d")⟩
      = ⟨200, [], [updateWithID 7]⟩ ∧
    WebhookHandler sampleUnmarshal (str "abc")
        ⟨str "xyz", .ok (str "\x7b\"update_id\":7\x7d")⟩
      = ⟨401, str "Unauthorized", []⟩ ∧
    WebhookHandler sampleUnmarshal (str "abc") ⟨str "abc", .ok (str "not json")⟩
      = ⟨400, str "Bad Request", []⟩ := by
  refine ⟨?_, ?_, by decide, by decide, by decide⟩
  · intro h1 h2
    simp [WebhookHandler, h1, h2]
  · intro h
    refine ⟨?_, ?_, ?_⟩
    · intro e he
      simp [WebhookHandler, if_neg h, he]
    · intro body hb hu
      simp [WebhookHandler, if_neg h, hb, hu]
    · intro body update hb hu
      simp [WebhookHandler, if_neg h, hb, hu]

/-- Witness of C10: with the secret `abc`, the header `xyz` is answered 401
without dispatch. -/
theorem C10_webhook_replies_witness :
    (WebhookHandler sampleUnmarshal (str "abc")
        ⟨str "xyz", .ok (str "\x7b\"update_id\":7\x7d")⟩).status = 401 ∧
    (WebhookHandler sampleUnmarshal (str "abc")
        ⟨str "xyz", .ok (str "\x7b\"update_id\":7\x7d")⟩).dispatched = [] :=
  (C10_webhook_replies sampleUnmarshal (str "abc")
    ⟨str "xyz", .ok (str "\x7b\"update_id\":7\x7d")⟩).1 (by decide) (by decide)

/-! ### The choice between multi-part and structured body -/

theorem asUpload_isSome_iff (v : Value) :
    v.asUpload.isSome = true ↔ ∃ file, v = .uploadPtr (some file) := by
  cases v <;> simp [Value.asUpload]
  rename_i file
  cases file <;> simp [Value.asUpload]

theorem boxedUpload_iff (v : Value) :
    (v.Kind = .Interface ∧ (!v.IsNil) = true ∧ v.Elem.asUpload.isSome = true) ↔
      ∃ file, v = .iface (some (.uploadPtr (some file))) := by
  constructor
  · rintro ⟨hk, -, he⟩
    cases v with
    | iface dyn =>
      cases dyn with
      | none => simp [Value.Elem, Value.asUpload] at he
      | some d =>
        simp only [Value.Elem] at he
        obtain ⟨file, hf⟩ := (asUpload_isSome_iff d).1 he
        exact ⟨file, by rw [hf]⟩
    | int k i => cases k <;> simp [Value.Kind] at hk
    | uint k n => cases k <;> simp [Value.Kind] at hk
    | float k bits => cases k <;> simp [Value.Kind] at hk
    | unread k => cases k <;> simp [Value.Kind] at hk
    | _ => simp [Value.Kind] at hk
  · rintro ⟨file, rfl⟩
    simp [Value.Kind, Value.IsNil, Value.Elem, Value.asUpload]

theorem scanUploadFields_iff (fields : List (StructField × Value)) :
    scanUploadFields fields = true ↔
      ∃ fv ∈ fields, fv.1.exported = true ∧ HoldsUpload fv.2 := by
  induction fields with
  | nil => simp [scanUploadFields]
  | cons fv rest ih =>
    obtain ⟨fieldType, field⟩ := fv
    unfold scanUploadFields
    by_cases hx : fieldType.exported = true
    · by_cases h1 : field.asUpload.isSome = true
      · simp only [hx, Bool.not_true, Bool.false_eq_true, if_false, h1, if_true, true_iff]
        exact ⟨(fieldType, field), List.mem_cons_self _ _, hx,
          Or.inl ((asUpload_isSome_iff field).1 h1)⟩
      · by_cases h2 : field.Kind = .Interface ∧ (!field.IsNil) = true ∧
            field.Elem.asUpload.isSome = true
        · simp only [hx, Bool.not_true, Bool.false_eq_true, if_false, h1, h2, and_self,
            if_true, true_iff]
          exact ⟨(fieldType, field), List.mem_cons_self _ _, hx,
            Or.inr ((boxedUpload_iff field).1 h2)⟩
        · simp only [hx, Bool.not_true, Bool.false_eq_true, if_false, h1, h2]
          rw [ih]
          constructor
          · rintro ⟨fv, hm, h⟩
            exact ⟨fv, List.mem_cons_of_mem _ hm, h⟩
          · rintro ⟨fv, hm, hfx, hu⟩
            rcases List.mem_cons.1 hm with rfl | hm
            · exfalso
              rcases hu with hu | hu
              · exact h1 ((asUpload_isSome_iff _).2 hu)
              · exact h2 ((boxedUpload_iff _).2 hu)
            · exact ⟨fv, hm, hfx, hu⟩
    · have hx2 : fieldType.exported = false := by simpa using hx
      simp only [hx2, Bool.not_false, if_true]
      rw [ih]
      constructor
      · rintro ⟨fv, hm, h⟩
        exact ⟨fv, List.mem_cons_of_mem _ hm, h⟩
      · rintro ⟨fv, hm, hfx, hu⟩
        rcases List.mem_cons.1 hm with rfl | hm
        · simp [hx2] at hfx
        · exact ⟨fv, hm, hfx, hu⟩

theorem elem_of_nil_pointer (v : Value) (hk : v.Kind = .Pointer) (hn : v.IsNil = true) :
    v.Elem = .invalid := by
  cases v <;> simp [Value.IsNil] at hn
  all_goals (rename_i t; cases t <;> simp [Value.IsNil] at hn; rfl)

theorem shouldUseMultipart_eq (params : Option Value) :
    shouldUseMultipart params = true ↔
      ∃ fields, requestFields params = some fields ∧ scanUploadFields fields = true := by
  cases params with
  | none => simp [shouldUseMultipart, requestFields]
  | some v =>
    unfold shouldUseMultipart requestFields
    by_cases hnil : v.Kind = .Pointer ∧ v.IsNil = true
    · simp only [hnil, and_self, if_true, Bool.false_eq_true, false_iff]
      rw [elem_of_nil_pointer v hnil.1 hnil.2]
      simp
    · simp only [hnil, if_false]
      split <;> simp

/-- C5, as the claim states it for every reachable field, fails: in a request
struct whose uploads sit in the elements of a slice, a non-nil
`*InputFileUpload` is reachable, yet `shouldUseMultipart` returns false and
`buildRequest` builds a structured body. -/
theorem C5_nested_upload_counterexample :
    ¬ (∀ params : Value,
        shouldUseMultipart (some params) = true ↔ reachesUpload params = true) := by
  intro h
  have h1 := (h mediaGroupParams).2 (by decide)
  revert h1
  decide

/-- C5 (amended): `shouldUseMultipart` returns true, and `buildRequest` takes
the multi-part path, if and only if the request value is a struct, or a
non-nil pointer to a struct, one of whose own exported fields holds a non-nil
`*InputFileUpload`, directly or boxed in a field of interface type. Nil
parameters, a string file reference and a request without upload select the
structured body. -/
theorem C5_multipart_decision (lib : Codec) (params : Option Value) :
    (shouldUseMultipart params = true ↔
      ∃ fields, requestFields params = some fields ∧
        ∃ fv ∈ fields, fv.1.exported = true ∧ HoldsUpload fv.2) ∧
    ((∃ err parts, buildRequest lib params = .ok (.multipart err parts)) ↔
      shouldUseMultipart params = true) ∧
    shouldUseMultipart none = false ∧
    shouldUseMultipart (some (.ptr none)) = false ∧
    shouldUseMultipart (some (photoParams (some (.uploadPtr (some sampleUpload))) [])) = true ∧
    shouldUseMultipart
      (some (.ptr (some (photoParams (some (.uploadPtr (some sampleUpload))) [])))) = true ∧
    shouldUseMultipart
      (some (.struct [(⟨str "Photo", true, str "photo"⟩, .uploadPtr (some sampleUpload))]))
      = true ∧
    shouldUseMultipart
      (some (photoParams (some (.fileStringPtr (some ⟨str "file-id"⟩))) [])) = false ∧
    shouldUseMultipart (some (photoParams none (str "hello"))) = false := by
  refine ⟨?_, ?_, by decide, by decide, by decide, by decide, by decide, by decide, by decide⟩
  · rw [shouldUseMultipart_eq]
    constructor
    · rintro ⟨fields, hf, hs⟩
      exact ⟨fields, hf, (scanUploadFields_iff fields).1 hs⟩
    · rintro ⟨fields, hf, hs⟩
      exact ⟨fields, hf, (scanUploadFields_iff fields).2 hs⟩
  · unfold buildRequest
    by_cases hm : shouldUseMultipart params = true
    · simp [hm, buildMultipartRequest]
    · have hm2 : shouldUseMultipart params = false := by simpa using hm
      simp only [hm2, Bool.false_eq_true, if_false, iff_false]
      rintro ⟨err, parts, h⟩
      unfold buildJSONRequest at h
      cases params with
      | none => simp at h
      | some v =>
        simp only at h
        split at h
        · simp at h
        · split at h <;> simp at h

/-- Witness of C5 (amended): a request struct whose `Photo` field, of interface
type, boxes a non-nil upload is sent as a multi-part body. -/
theorem C5_multipart_decision_witness :
    shouldUseMultipart (some (photoParams (some (.uploadPtr (some sampleUpload))) [])) = true :=
  (C5_multipart_decision sampleCodec
    (some (photoParams (some (.uploadPtr (some sampleUpload))) []))).1.2
    ⟨_, rfl, (⟨str "Photo", true, str "photo"⟩, .iface (some (.uploadPtr (some sampleUpload)))),
      by simp, rfl, Or.inr ⟨sampleUpload, rfl⟩⟩

/-! ### Omission of empty fields in a multi-part body -/

theorem omitEmptyLoop_iff (parts : List GoString) :
    omitEmptyLoop parts = true ↔ str "omitempty" ∈ parts := by
  induction parts with
  | nil => simp [omitEmptyLoop]
  | cons part rest ih =>
    unfold omitEmptyLoop
    by_cases h : part = str "omitempty"
    · simp [h]
    · simp only [h, if_false, ih, List.mem_cons]
      constructor
      · exact Or.inr
      · rintro (h2 | h2)
        · exact absurd h2.symm h
        · exact h2

theorem parseJSONTag_snd (tag : GoString) :
    (parseJSONTag tag).2 = true ↔ CarriesOmitEmpty tag := by
  simp [parseJSONTag, CarriesOmitEmpty, omitEmptyLoop_iff]

theorem parseJSONTag_fst (tag : GoString) : (parseJSONTag tag).1 = wireName tag := rfl

theorem isZeroValue_iff (v : Value) : isZeroValue v = true ↔ IsEmptyValue v := by
  cases v with
  | slice elems => cases elems <;> simp [isZeroValue, IsEmptyValue, Value.Len]
  | map entries => cases entries <;> simp [isZeroValue, IsEmptyValue, Value.Len]
  | _ => simp [isZeroValue, IsEmptyValue]

theorem writeFileUpload_ok (writer writer2 : Writer) (fieldName : GoString)
    (file : InputFileUpload) (h : writeFileUpload writer fieldName file = (none, writer2)) :
    ∃ p, writer2 = writer ++ [p] ∧ p.name = fieldName := by
  unfold writeFileUpload at h
  cases hd : file.Data with
  | none => simp [hd] at h
  | some data =>
    simp only [hd] at h
    by_cases hf : data.fails = true
    · simp [hf] at h
    · have hf2 : data.fails = false := by simpa using hf
      simp only [hf2, Bool.false_eq_true, if_false, Prod.mk.injEq, true_and] at h
      exact ⟨_, h.symm, rfl⟩

theorem writeConcrete_ok (lib : Codec) (writer writer2 : Writer) (fieldName : GoString)
    (field : Value)
    (h : (match field.asUpload with
      | some fileUpload => writeFileUpload writer fieldName fileUpload
      | none =>
        match field.asFileString with
        | some fileString => writer.WriteField fieldName fileString.Data
        | none =>
          match field with
          | .string s => writer.WriteField fieldName s
          | .int _ i => writer.WriteField fieldName (fmtInt i)
          | .uint _ n => writer.WriteField fieldName (fmtInt n)
          | .float _ bits => writer.WriteField fieldName (lib.sprintfFloat bits)
          | .bool b => writer.WriteField fieldName (if b then str "true" else str "false")
          | .slice _ | .array _ | .map _ | .struct _ | .ptr _ | .uploadPtr _
          | .fileStringPtr _ =>
            match lib.jsonMarshal field with
            | .error err => (some (.wrap (str "failed to marshal field") err), writer)
            | .ok data => writer.WriteField fieldName (trimQuotes data)
          | .invalid | .iface _ | .unread _ =>
            (some (.plain (str "unsupported field type: " ++ field.Kind.toGoString)), writer))
        = (none, writer2)) :
    ∃ p, writer2 = writer ++ [p] ∧ p.name = fieldName := by
  cases hu : field.asUpload with
  | some fileUpload =>
    simp only [hu] at h
    exact writeFileUpload_ok _ _ _ _ h
  | none =>
    simp only [hu] at h
    cases hs : field.asFileString with
    | some fileString =>
      simp only [hs, Writer.WriteField, Prod.mk.injEq, true_and] at h
      exact ⟨_, h.symm, rfl⟩
    | none =>
      simp only [hs] at h
      split at h
      any_goals
        (simp only [Writer.WriteField, Prod.mk.injEq, true_and] at h
         exact ⟨_, h.symm, rfl⟩)
      any_goals
        (split at h
         · simp at h
         · simp only [Writer.WriteField, Prod.mk.injEq, true_and] at h
           exact ⟨_, h.symm, rfl⟩)
      all_goals simp at h

theorem writeFormField_ok (lib : Codec) (writer writer2 : Writer) (fieldName : GoString)
    (field : Value) (h : writeFormField lib writer fieldName field = (none, writer2)) :
    (field = .iface none ∧ writer2 = writer) ∨
    (field ≠ .iface none ∧ ∃ p, writer2 = writer ++ [p] ∧ p.name = fieldName) := by
  unfold writeFormField at h
  by_cases hnil : field.Kind = .Interface ∧ field.IsNil = true
  · left
    simp only [hnil, and_self, if_true, Prod.mk.injEq, true_and] at h
    refine ⟨?_, h.symm⟩
    obtain ⟨hk, hn⟩ := hnil
    cases field with
    | iface dyn => cases dyn <;> simp [Value.IsNil] at hn ⊢
    | int k i => cases k <;> simp [Value.Kind] at hk
    | uint k n => cases k <;> simp [Value.Kind] at hk
    | float k bits => cases k <;> simp [Value.Kind] at hk
    | unread k => cases k <;> simp [Value.Kind] at hk
    | _ => simp [Value.Kind] at hk
  · right
    rw [if_neg hnil] at h
    refine ⟨?_, writeConcrete_ok lib writer writer2 fieldName _ h⟩
    rintro rfl
    exact hnil ⟨rfl, rfl⟩

theorem fieldEmits_nil_of_no_wire_name (fv : StructField × Value) (h : ¬ HasWireName fv.1) :
    FieldEmits fv [] :=
  ⟨fun _ => rfl, fun hw => absurd hw h⟩

theorem writeFieldsLoop_emits (lib : Codec) (fields : List (StructField × Value)) :
    ∀ writer writer2 : Writer, writeFieldsLoop lib writer fields = (none, writer2) →
      ∃ emitted : List (List Part),
        List.Forall₂ FieldEmits fields emitted ∧ writer2 = writer ++ emitted.flatten := by
  induction fields with
  | nil =>
    intro writer writer2 h
    simp only [writeFieldsLoop, Prod.mk.injEq, true_and] at h
    exact ⟨[], List.Forall₂.nil, by simp [h]⟩
  | cons fv rest ih =>
    intro writer writer2 h
    obtain ⟨fieldType, field⟩ := fv
    unfold writeFieldsLoop at h
    by_cases hx : fieldType.exported = true
    swap
    · have hx2 : fieldType.exported = false := by simpa using hx
      simp only [hx2, Bool.not_false, if_true] at h
      obtain ⟨emitted, hall, hw⟩ := ih writer writer2 h
      exact ⟨[] :: emitted,
        List.Forall₂.cons (fieldEmits_nil_of_no_wire_name _ (fun hw => hx hw.1)) hall,
        by simpa using hw⟩
    simp only [hx, Bool.not_true, Bool.false_eq_true, if_false] at h
    by_cases ht : fieldType.jsonTag = [] ∨ fieldType.jsonTag = str "-"
    · rw [if_pos ht] at h
      obtain ⟨emitted, hall, hw⟩ := ih writer writer2 h
      refine ⟨[] :: emitted, List.Forall₂.cons (fieldEmits_nil_of_no_wire_name _ ?_) hall,
        by simpa using hw⟩
      rintro ⟨-, h1, h2⟩
      rcases ht with ht | ht
      · exact h1 ht
      · exact h2 ht
    rw [if_neg ht] at h
    by_cases hz : ((parseJSONTag fieldType.jsonTag).2 && isZeroValue field) = true
    · rw [if_pos hz] at h
      obtain ⟨emitted, hall, hw⟩ := ih writer writer2 h
      refine ⟨[] :: emitted, List.Forall₂.cons ⟨fun _ => rfl, fun _ => ⟨fun _ => rfl,
        fun _ => rfl, fun hne _ => ?_⟩⟩ hall, by simpa using hw⟩
      exfalso
      rw [Bool.and_eq_true] at hz
      exact hne ⟨(parseJSONTag_snd _).1 hz.1, (isZeroValue_iff _).1 hz.2⟩
    rw [if_neg hz] at h
    have hnot : ¬ (CarriesOmitEmpty fieldType.jsonTag ∧ IsEmptyValue field) := by
      rintro ⟨h1, h2⟩
      apply hz
      rw [Bool.and_eq_true]
      exact ⟨(parseJSONTag_snd _).2 h1, (isZeroValue_iff _).2 h2⟩
    cases hf : writeFormField lib writer (parseJSONTag fieldType.jsonTag).1 field with
    | mk err writer1 =>
      rw [hf] at h
      cases err with
      | some e => simp at h
      | none =>
        simp only at h
        obtain ⟨emitted, hall, hw⟩ := ih writer1 writer2 h
        rcases writeFormField_ok lib writer writer1 _ field hf with ⟨hnil, hw1⟩ | ⟨hne, p, hw1, hp⟩
        · refine ⟨[] :: emitted, List.Forall₂.cons ⟨fun _ => rfl, fun _ => ⟨fun _ => rfl,
            fun _ => rfl, fun _ hne => absurd hnil hne⟩⟩ hall, ?_⟩
          rw [hw, hw1]
          simp
        · refine ⟨[p] :: emitted, List.Forall₂.cons ⟨fun hw => ?_, fun _ => ⟨fun hboth => ?_,
            fun hnil => absurd hnil hne, fun _ _ => ⟨p, rfl, ?_⟩⟩⟩ hall, ?_⟩
          · exfalso
            apply hw
            refine ⟨hx, fun h1 => ht (Or.inl h1), fun h2 => ht (Or.inr h2)⟩
          · exact absurd hboth hnot
          · rw [hp, parseJSONTag_fst]
          · rw [hw, hw1]
            simp

theorem writeFormFields_of_requestFields (lib : Codec) (writer : Writer)
    (params : Option Value) (fields : List (StructField × Value))
    (hf : requestFields params = some fields) :
    writeFormFields lib writer params = writeFieldsLoop lib writer fields := by
  cases params with
  | none => simp [requestFields] at hf
  | some v =>
    unfold requestFields at hf
    unfold writeFormFields
    by_cases hnil : v.Kind = .Pointer ∧ v.IsNil = true
    · exfalso
      simp only [hnil.1, if_true, elem_of_nil_pointer v hnil.1 hnil.2] at hf
      simp at hf
    · simp only [hnil, if_false]
      cases hv : (if v.Kind = .Pointer then v.Elem else v) with
      | struct fs =>
        simp only [hv, Option.some.injEq] at hf
        subst hf
        rfl
      | _ =>
        simp only [hv] at hf
        simp at hf

/-- C6, as the claim states it, fails: a field without `omitempty` whose value
is a nil interface is not emitted. Were every field with a wire name and
without `omitempty` emitted as one part, the request struct with the single
field `Photo` (tag `photo`) holding a nil interface would yield one part; its
encoding succeeds with no part at all. -/
theorem C6_nil_interface_counterexample :
    ¬ (∀ (fields : List (StructField × Value)) (writer2 : Writer),
        writeFormFields sampleCodec [] (some (.struct fields)) = (none, writer2) →
        ∃ emitted : List (List Part),
          List.Forall₂ FieldEmitsAsClaimed fields emitted ∧ writer2 = emitted.flatten) := by
  intro h
  obtain ⟨emitted, hall, hw⟩ :=
    h [(⟨str "Photo", true, str "photo"⟩, .iface none)] [] (by decide)
  cases hall with
  | cons h1 h2 =>
    cases h2
    have hwire : HasWireName (⟨str "Photo", true, str "photo"⟩ : StructField) :=
      ⟨rfl, by decide, by decide⟩
    have hno : ¬ (CarriesOmitEmpty (str "photo") ∧ IsEmptyValue (.iface none)) := by
      rintro ⟨hc, -⟩
      revert hc
      unfold CarriesOmitEmpty
      decide
    obtain ⟨p, hp, -⟩ := (h1.2 hwire).2 hno
    subst hp
    simp at hw

/-- C6 (amended): when `writeFormFields` encodes a request struct (the value
itself or a non-nil pointer to it) without error, the parts it writes are the
contributions of the fields, in order, where a field contributes nothing when
it has no wire name (it is unexported or its json tag is absent or `-`), when
its tag carries `omitempty` and its value is the empty string, a zero number,
false, nil or an empty slice, map or array, or when its value is a nil
interface (with or without `omitempty`), and contributes exactly one part named
by its wire name otherwise, also when it is zero without `omitempty`. -/
theorem C6_omitempty_parts (lib : Codec) (writer writer2 : Writer) (params : Option Value)
    (fields : List (StructField × Value)) (hf : requestFields params = some fields)
    (h : writeFormFields lib writer params = (none, writer2)) :
    ∃ emitted : List (List Part),
      List.Forall₂ FieldEmits fields emitted ∧ writer2 = writer ++ emitted.flatten := by
  rw [writeFormFields_of_requestFields lib writer params fields hf] at h
  exact writeFieldsLoop_emits lib fields writer writer2 h

/-- Witness of C6 (amended): a photo request with an upload and an empty
caption tagged `omitempty` is written as the parts `chat_id` and `photo`. -/
theorem C6_omitempty_parts_witness :
    ∃ emitted : List (List Part),
      List.Forall₂ FieldEmits
        [(⟨str "ChatID", true, str "chat_id"⟩, .int .Int64 5),
         (⟨str "Photo", true, str "photo"⟩, .iface (some (.uploadPtr (some sampleUpload)))),
         (⟨str "Caption", true, str "caption,omitempty"⟩, .string [])] emitted ∧
      [⟨str "chat_id", none, str "5"⟩, ⟨str "photo", some (str "a.png"), str "PNG"⟩]
        = [] ++ emitted.flatten :=
  C6_omitempty_parts sampleCodec []
    [⟨str "chat_id", none, str "5"⟩, ⟨str "photo", some (str "a.png"), str "PNG"⟩]
    (some (photoParams (some (.uploadPtr (some sampleUpload))) [])) _ rfl (by decide)

/-! ### Routing -/

theorem handlerType_eq_firstPopulatedKind (update : Update) :
    handlerType update = firstPopulatedKind update := by
  unfold handlerType firstPopulatedKind
  cases update.Message <;> cases update.EditedMessage <;> cases update.ChannelPost <;>
    cases update.CallbackQuery <;> cases update.InlineQuery <;> rfl

/-- C11: `routeUpdate` runs the handler list of exactly one kind, the first
populated one in the order message, edited message, channel post, callback
query, inline query, and `other` when none is populated; the lists of the other
kinds have no influence on the result. For an update with both a message and a
callback query only the message handlers run. -/
theorem C11_route_priority {σ : Type} (b : GramGoBot σ) (ctx : Context) (w : σ) :
    routeUpdate b ctx w
      = (match b.handlers (firstPopulatedKind ctx.Update) with
         | none => (none, w)
         | some handlers => runHandlers handlers ctx w) ∧
    (∀ b2 : GramGoBot σ,
      b2.handlers (firstPopulatedKind ctx.Update) = b.handlers (firstPopulatedKind ctx.Update) →
      routeUpdate b2 ctx w = routeUpdate b ctx w) ∧
    (ctx.Update.Message.isSome = true → firstPopulatedKind ctx.Update = str "message") ∧
    (ctx.Update.Message = none → ctx.Update.EditedMessage.isSome = true →
      firstPopulatedKind ctx.Update = str "edited_message") ∧
    (ctx.Update.Message = none → ctx.Update.EditedMessage = none →
      ctx.Update.ChannelPost.isSome = true →
      firstPopulatedKind ctx.Update = str "channel_post") ∧
    (ctx.Update.Message = none → ctx.Update.EditedMessage = none →
      ctx.Update.ChannelPost = none → ctx.Update.CallbackQuery.isSome = true →
      firstPopulatedKind ctx.Update = str "callback_query") ∧
    (ctx.Update.Message = none → ctx.Update.EditedMessage = none →
      ctx.Update.ChannelPost = none → ctx.Update.CallbackQuery = none →
      ctx.Update.InlineQuery.isSome = true →
      firstPopulatedKind ctx.Update = str "inline_query") ∧
    (ctx.Update.Message = none → ctx.Update.EditedMessage = none →
      ctx.Update.ChannelPost = none → ctx.Update.CallbackQuery = none →
      ctx.Update.InlineQuery = none → firstPopulatedKind ctx.Update = str "other") ∧
    routeUpdate
        (((emptyBot (List String)).OnCallbackQuery (recordHandler "C" false) []).OnMessage
          (recordHandler "M" false) [])
        (newContext messageAndCallbackUpdate) []
      = (none, ["M"]) := by
  refine ⟨?_, ?_, ?_, ?_, ?_, ?_, ?_, ?_, by decide⟩
  · simp only [routeUpdate, handlerType_eq_firstPopulatedKind]
  · intro b2 h
    simp only [routeUpdate, handlerType_eq_firstPopulatedKind, h]
  · intro h
    unfold firstPopulatedKind
    simp [h]
  · intro h1 h2
    unfold firstPopulatedKind
    simp [h1, h2]
  · intro h1 h2 h3
    unfold firstPopulatedKind
    simp [h1, h2, h3]
  · intro h1 h2 h3 h4
    unfold firstPopulatedKind
    simp [h1, h2, h3, h4]
  · intro h1 h2 h3 h4 h5
    unfold firstPopulatedKind
    simp [h1, h2, h3, h4, h5]
  · intro h1 h2 h3 h4 h5
    unfold firstPopulatedKind
    simp [h1, h2, h3, h4, h5]

/-- Witness of C11: an update with both a message and a callback query is of
the kind `message`. -/
theorem C11_route_priority_witness :
    firstPopulatedKind messageAndCallbackUpdate = str "message" :=
  (C11_route_priority (emptyBot Unit) (newContext messageAndCallbackUpdate) ()).2.2.1 rfl

theorem runHandlers_of_allSucceed {σ : Type} (handlers : List (handler σ)) (ctx : Context) :
    ∀ (w w1 : σ), allSucceed handlers ctx w = some w1 →
      runHandlers handlers ctx w = (none, w1) := by
  induction handlers with
  | nil =>
    intro w w1 h
    simp only [allSucceed, Option.some.injEq] at h
    simp [runHandlers, h]
  | cons h rest ih =>
    intro w w1 hall
    unfold allSucceed at hall
    unfold runHandlers
    cases hh : h.handle ctx w with
    | mk e w2 =>
      rw [hh] at hall
      cases e with
      | some err => simp at hall
      | none => exact ih w2 w1 hall

theorem runHandlers_first_failure {σ : Type} (pre post : List (handler σ)) (hk : handler σ)
    (ctx : Context) :
    ∀ (w w1 w2 : σ) (err : GoError), allSucceed pre ctx w = some w1 →
      hk.handle ctx w1 = (some err, w2) →
      runHandlers (pre ++ hk :: post) ctx w = (some err, w2) := by
  induction pre with
  | nil =>
    intro w w1 w2 err hall hfail
    simp only [allSucceed, Option.some.injEq] at hall
    subst hall
    simp [runHandlers, hfail]
  | cons h rest ih =>
    intro w w1 w2 err hall hfail
    unfold allSucceed at hall
    rw [List.cons_append]
    unfold runHandlers
    cases hh : h.handle ctx w with
    | mk e w3 =>
      rw [hh] at hall
      cases e with
      | some e2 => simp at hall
      | none => exact ih w3 w1 w2 err hall hfail

theorem allSucceed_or_first_failure {σ : Type} (handlers : List (handler σ)) (ctx : Context) :
    ∀ w : σ, (∃ w1, allSucceed handlers ctx w = some w1) ∨
      ∃ pre hk post w1 err w2, handlers = pre ++ hk :: post ∧
        allSucceed pre ctx w = some w1 ∧ hk.handle ctx w1 = (some err, w2) := by
  induction handlers with
  | nil => intro w; exact Or.inl ⟨w, rfl⟩
  | cons h rest ih =>
    intro w
    cases hh : h.handle ctx w with
    | mk e w2 =>
      cases e with
      | some err => exact Or.inr ⟨[], h, rest, w, err, w2, rfl, rfl, hh⟩
      | none =>
        rcases ih w2 with ⟨w1, h1⟩ | ⟨pre, hk, post, w1, err, w3, heq, h1, h2⟩
        · left
          exact ⟨w1, by simp only [allSucceed, hh, h1]⟩
        · right
          refine ⟨h :: pre, hk, post, w1, err, w3, by rw [heq, List.cons_append], ?_, h2⟩
          simp only [allSucceed, hh, h1]

/-- C12: `routeUpdate` invokes the handlers registered for the kind of the
update in their order. When the handlers before `hk` all succeed and `hk`
fails, the result is the failure of `hk` and the world `hk` left, whatever the
handlers after `hk` are: they are not invoked. When all succeed, each has run
once, in order, and the result is success. One of the two cases always applies.
`OnMessage` appends, so the order of the list is the order of registration. -/
theorem C12_handlers_in_order {σ : Type} (b : GramGoBot σ) (ctx : Context) (w : σ)
    (handlers : List (handler σ))
    (hreg : b.handlers (handlerType ctx.Update) = some handlers)
    (h1 h2 : HandlerFunc σ) (m1 m2 : List (MiddlewareFunc σ)) :
    (∀ pre hk post w1 err w2, handlers = pre ++ hk :: post →
      allSucceed pre ctx w = some w1 → hk.handle ctx w1 = (some err, w2) →
      routeUpdate b ctx w = (some err, w2)) ∧
    (∀ w1, allSucceed handlers ctx w = some w1 → routeUpdate b ctx w = (none, w1)) ∧
    ((∃ w1, allSucceed handlers ctx w = some w1) ∨
      ∃ pre hk post w1 err w2, handlers = pre ++ hk :: post ∧
        allSucceed pre ctx w = some w1 ∧ hk.handle ctx w1 = (some err, w2)) ∧
    ((b.OnMessage h1 m1).OnMessage h2 m2).handlers (str "message")
      = some ((b.handlers (str "message")).getD [] ++ [newHandler h1 m1, newHandler h2 m2]) ∧
    routeUpdate
        ((((emptyBot (List String)).OnMessage (recordHandler "h1" false) []).OnMessage
          (recordHandler "h2" true) []).OnMessage (recordHandler "h3" false) [])
        (newContext messageAndCallbackUpdate) []
      = (some (.plain (str "h2")), ["h1", "h2"]) ∧
    routeUpdate
        ((((emptyBot (List String)).OnMessage (recordHandler "h1" false) []).OnMessage
          (recordHandler "h2" false) []).OnMessage (recordHandler "h3" false) [])
        (newContext messageAndCallbackUpdate) []
      = (none, ["h1", "h2", "h3"]) := by
  refine ⟨?_, ?_, allSucceed_or_first_failure handlers ctx w, ?_, by decide, by decide⟩
  · intro pre hk post w1 err w2 heq hall hfail
    simp only [routeUpdate, hreg, heq]
    exact runHandlers_first_failure pre post hk ctx w w1 w2 err hall hfail
  · intro w1 hall
    simp only [routeUpdate, hreg]
    exact runHandlers_of_allSucceed handlers ctx w w1 hall
  · simp [GramGoBot.OnMessage, GramGoBot.register]

/-- Witness of C12: of three handlers registered for messages of which the
second fails, the first two run and the failure of the second is returned. -/
theorem C12_handlers_in_order_witness :
    routeUpdate
        ((((emptyBot (List String)).OnMessage (recordHandler "h1" false) []).OnMessage
          (recordHandler "h2" true) []).OnMessage (recordHandler "h3" false) [])
        (newContext messageAndCallbackUpdate) []
      = (some (.plain (str "h2")), ["h1", "h2"]) :=
  (C12_handlers_in_order
    ((((emptyBot (List String)).OnMessage (recordHandler "h1" false) []).OnMessage
      (recordHandler "h2" true) []).OnMessage (recordHandler "h3" false) [])
    (newContext messageAndCallbackUpdate) []
    [newHandler (recordHandler "h1" false) [], newHandler (recordHandler "h2" true) [],
      newHandler (recordHandler "h3" false) []]
    rfl (recordHandler "h1" false) (recordHandler "h2" false) [] []).1
    [newHandler (recordHandler "h1" false) []] (newHandler (recordHandler "h2" true) [])
    [newHandler (recordHandler "h3" false) []] ["h1"] (.plain (str "h2")) ["h1", "h2"]
    rfl rfl rfl

/-! ### Command registration -/

theorem OnCommand_handlers {σ : Type} (b : GramGoBot σ) (onFault : HandlerFunc σ)
    (command : GoString) (h : HandlerFunc σ) (ms : List (MiddlewareFunc σ)) :
    (b.OnCommand onFault command h ms).handlers (str "message")
      = some ((b.handlers (str "message")).getD []
          ++ [newHandler (wrappedHandler onFault command h) ms]) := by
  simp [GramGoBot.OnCommand, GramGoBot.OnMessage, GramGoBot.register]

/-- C13: the handler that `OnCommand(c, h)` registers returns the outcome of
`h` on an update for which `FilterCommand(c)` is true and returns success
without invoking `h` on one for which it is false; `OnCommand` appends exactly
one entry, that handler with the middleware given, to the list of the kind
`message`, and leaves the lists of the other kinds and the bot-level
middleware alone. -/
theorem C13_command_registration {σ : Type} (b : GramGoBot σ) (onFault : HandlerFunc σ)
    (command : GoString) (h : HandlerFunc σ) (ms : List (MiddlewareFunc σ))
    (ctx : Context) (w : σ) :
    (FilterCommand command ctx.Update = some true →
      wrappedHandler onFault command h ctx w = h ctx w ∧
      (newHandler (wrappedHandler onFault command h) []).handle ctx w = h ctx w) ∧
    (FilterCommand command ctx.Update = some false →
      wrappedHandler onFault command h ctx w = (none, w) ∧
      (newHandler (wrappedHandler onFault command h) []).handle ctx w = (none, w)) ∧
    (b.OnCommand onFault command h ms).handlers (str "message")
      = some ((b.handlers (str "message")).getD []
          ++ [newHandler (wrappedHandler onFault command h) ms]) ∧
    (∀ kind, kind ≠ str "message" →
      (b.OnCommand onFault command h ms).handlers kind = b.handlers kind) ∧
    (b.OnCommand onFault command h ms).middleware = b.middleware ∧
    routeUpdate ((emptyBot (List String)).OnCommand traceHandler (str "start") traceHandler [])
        (newContext (commandUpdate (str "/start") 6)) []
      = (none, ["H"]) ∧
    routeUpdate ((emptyBot (List String)).OnCommand traceHandler (str "start") traceHandler [])
        (newContext (textUpdate (str "hello") [])) []
      = (none, []) := by
  refine ⟨?_, ?_, OnCommand_handlers b onFault command h ms, ?_, rfl, by decide, by decide⟩
  · intro hf
    simp [wrappedHandler, hf, handler.handle, newHandler, wrapLoop]
  · intro hf
    simp [wrappedHandler, hf, handler.handle, newHandler, wrapLoop]
  · intro kind hk
    simp [GramGoBot.OnCommand, GramGoBot.OnMessage, GramGoBot.register, Function.update, hk]

/-- Witness of C13: on the update with text `/start`, tagged as a command, the
handler registered for `start` returns what the underlying handler returns. -/
theorem C13_command_registration_witness :
    wrappedHandler traceHandler (str "start") traceHandler
        (newContext (commandUpdate (str "/start") 6)) []
      = traceHandler (newContext (commandUpdate (str "/start") 6)) [] :=
  ((C13_command_registration (emptyBot (List String)) traceHandler (str "start") traceHandler []
    (newContext (commandUpdate (str "/start") 6)) []).1 (by decide)).1

/-- C14: evaluation of the code at the failing inputs. On a message whose first
entity is a `bot_command` at offset 0 with a length above the byte length of
the text, or with a negative length, the slice `Text[:entity.Length]` is out of
range and `FilterCommand` faults instead of returning a boolean. -/
theorem C14_filter_faults_out_of_range :
    FilterCommand (str "start") (commandUpdate (str "/s") 5) = none ∧
    FilterCommand (str "start") (commandUpdate (str "/start") (-1)) = none ∧
    FilterCommand (str "start") (commandUpdate (str "/start") 6) = some true := by
  refine ⟨?_, ?_, ?_⟩ <;> decide

/-- C18: the entry that `OnCommand(c, h, m1, ..., mn)` registers runs
`m1 (m2 (... (mn wrapped)))` where `wrapped` is the check of the command
filter followed by `h`: the middleware is entered, in order, for every message
update, and on an update that does not match the command only `h` is skipped.
With the tracing middleware `[A, B]` an update that does not match yields
A-before, B-before, B-after, A-after without `H`, and a counting middleware
counts the matching update and the other one alike. -/
theorem C18_middleware_wraps_filter {σ : Type} (b : GramGoBot σ) (onFault : HandlerFunc σ)
    (command : GoString) (h : HandlerFunc σ) (ms : List (MiddlewareFunc σ))
    (ctx : Context) (w : σ) :
    (b.OnCommand onFault command h ms).handlers (str "message")
      = some ((b.handlers (str "message")).getD []
          ++ [newHandler (wrappedHandler onFault command h) ms]) ∧
    (newHandler (wrappedHandler onFault command h) ms).handle ctx w
      = (ms.foldr (fun m f => m f) (wrappedHandler onFault command h)) ctx w ∧
    (∀ (c : Context) (w2 : σ), FilterCommand command c.Update = some false →
      wrappedHandler onFault command h c w2 = (none, w2)) ∧
    routeUpdate
        ((emptyBot (List String)).OnCommand traceHandler (str "start") traceHandler
          [traceMiddleware "A", traceMiddleware "B"])
        (newContext (textUpdate (str "hello") [])) []
      = (none, ["A-before", "B-before", "B-after", "A-after"]) ∧
    routeUpdate
        ((emptyBot (List String)).OnCommand traceHandler (str "start") traceHandler
          [traceMiddleware "A", traceMiddleware "B"])
        (newContext (commandUpdate (str "/start") 6)) []
      = (none, ["A-before", "B-before", "H", "B-after", "A-after"]) ∧
    (routeUpdate
        ((emptyBot Nat).OnCommand countingHandler (str "start") (fun _ n => (none, n + 100))
          [countingMiddleware])
        (newContext (textUpdate (str "hello") [])) 0).2 = 1 ∧
    (routeUpdate
        ((emptyBot Nat).OnCommand countingHandler (str "start") (fun _ n => (none, n + 100))
          [countingMiddleware])
        (newContext (commandUpdate (str "/start") 6)) 0).2 = 101 := by
  refine ⟨OnCommand_handlers b onFault command h ms, ?_, ?_, by decide, by decide, by decide,
    by decide⟩
  · simp [handler.handle, newHandler, wrapLoop_length]
  · intro c w2 hf
    simp [wrappedHandler, hf]

/-- Witness of C18: on a message that is no command the handler registered for
`start` returns success and leaves the world alone. -/
theorem C18_middleware_wraps_filter_witness :
    wrappedHandler traceHandler (str "start") traceHandler
        (newContext (textUpdate (str "hello") [])) ["A-before"]
      = (none, ["A-before"]) :=
  (C18_middleware_wraps_filter (emptyBot (List String)) traceHandler (str "start") traceHandler
    [] (newContext (textUpdate (str "hello") [])) []).2.2.1
    (newContext (textUpdate (str "hello") [])) ["A-before"] (by decide)

/-! ### Composite fields of a multi-part body -/

/-- C15: evaluation of the code at the failing input. For a field that is a
pointer to the string `say "hi"`, whose serialization is `"say \"hi\""`, the
part written holds the serialization stripped of its leading quote and of both
trailing quotes, where removing the one surrounding pair would leave the last
escaped quote in place. For the string `hello` the two agree. -/
theorem C15_composite_field_overtrimmed :
    writeFormField quotingCodec [] (str "caption") (.ptr (some (.string (str "say \"hi\""))))
      = (none, [⟨str "caption", none, str "say \\\"hi\\"⟩]) ∧
    quotingCodec.jsonMarshal (.ptr (some (.string (str "say \"hi\""))))
      = .ok (str "\"say \\\"hi\\\"\"") ∧
    unwrapOnePair (str "\"say \\\"hi\\\"\"") = str "say \\\"hi\\\"" ∧
    trimQuotes (str "\"say \\\"hi\\\"\"") ≠ unwrapOnePair (str "\"say \\\"hi\\\"\"") ∧
    writeFormField quotingCodec [] (str "caption") (.ptr (some (.string (str "hello"))))
      = (none, [⟨str "caption", none, unwrapOnePair (str "\"hello\"")⟩]) := by
  refine ⟨by decide, ?_, by decide, by decide, by decide⟩
  show Except.ok (jsonQuote (str "say \"hi\"")) = Except.ok (str "\"say \\\"hi\\\"\"")
  have h : jsonQuote (str "say \"hi\"") = str "\"say \\\"hi\\\"\"" := by decide
  rw [h]

/-! ### The message of an API error -/

/-- C16, as the claim states it, fails: for an API error whose parameters carry
both a positive `retry_after_seconds` (5) and a non-zero `migrate_to_chat_id`
(7), the message carries the retry-after hint and not the migrate hint. -/
theorem C16_retry_hint_first_counterexample :
    ¬ (∀ (e : APIError) (params : ResponseParameters), e.Parameters = some params →
        params.MigrateToChatID ≠ 0 →
        migrateHint params.MigrateToChatID <:+: e.Error ∧
        ¬ (retryHint params.RetryAfter <:+: e.Error)) ∧
    APIError.Error ⟨429, str "Too Many Requests", some ⟨5, 7⟩⟩
      = str "telegram api error 429: Too Many Requests (retry after 5 seconds)" := by
  refine ⟨?_, by decide⟩
  intro h
  have h1 := (h ⟨429, str "Too Many Requests", some ⟨5, 7⟩⟩ ⟨5, 7⟩ rfl (by decide)).2
  apply h1
  exact ⟨str "telegram api error 429: Too Many Requests", [], by decide⟩

/-- C16 (amended): the message of an API error is its base text followed by at
most one hint. It is followed by the retry-after hint when
`retry_after_seconds` is positive, also when `migrate_to_chat_id` is non-zero
as well; by the migrate-to-chat-id hint when `retry_after_seconds` is not
positive and `migrate_to_chat_id` is non-zero; and by nothing otherwise. -/
theorem C16_error_message_hint (e : APIError) :
    (∀ params, e.Parameters = some params → params.RetryAfter > 0 →
      e.Error = baseMessage e ++ retryHint params.RetryAfter) ∧
    (∀ params, e.Parameters = some params → params.RetryAfter ≤ 0 →
      params.MigrateToChatID ≠ 0 →
      e.Error = baseMessage e ++ migrateHint params.MigrateToChatID) ∧
    (∀ params, e.Parameters = some params → params.RetryAfter ≤ 0 →
      params.MigrateToChatID = 0 → e.Error = baseMessage e) ∧
    (e.Parameters = none → e.Error = baseMessage e) := by
  refine ⟨?_, ?_, ?_, ?_⟩
  · intro params hp hr
    simp [APIError.Error, hp, hr, baseMessage, retryHint]
  · intro params hp hr hm
    simp [APIError.Error, hp, not_lt.2 hr, hm, baseMessage, migrateHint]
  · intro params hp hr hm
    simp [APIError.Error, hp, not_lt.2 hr, hm, baseMessage]
  · intro hp
    simp [APIError.Error, hp, baseMessage]

/-- Witness of C16 (amended): the message of an error that carries only the
migrate hint. -/
theorem C16_error_message_hint_witness :
    APIError.Error ⟨400, str "group upgraded", some ⟨0, 7⟩⟩
      = baseMessage ⟨400, str "group upgraded", some ⟨0, 7⟩⟩ ++ migrateHint 7 :=
  (C16_error_message_hint ⟨400, str "group upgraded", some ⟨0, 7⟩⟩).2.1 ⟨0, 7⟩ rfl
    (by decide) (by decide)

/-! ### The batch limit of the polling loop -/

theorem pollLoop_params {τ : Type} (config : PollingConfig) (spawn : Update → τ → τ)
    (fetches : List (Except GoError (List Update))) :
    ∀ st : Int × τ,
      (pollLoop config spawn fetches st).1.length = fetches.length ∧
      ∀ p ∈ (pollLoop config spawn fetches st).1, p.Limit = config.Limit := by
  induction fetches with
  | nil =>
    intro st
    simp [pollLoop]
  | cons fetched rest ih =>
    intro st
    obtain ⟨hlen, hlim⟩ := ih (pollStep spawn fetched st)
    simp only [pollLoop, List.length_cons, List.mem_cons]
    refine ⟨by rw [hlen], ?_⟩
    rintro p (rfl | hp)
    · rfl
    · exact hlim p hp

/-- C17, as the claim states it, fails: a configuration with `Limit = 500` makes
the loop of `StartPolling` send 500 as the batch limit. -/
theorem C17_limit_not_clamped_counterexample :
    ¬ (∀ (configs : List PollingConfig) (fetches : List (Except GoError (List Update)))
        (dropped sent : List GetUpdatesParams) (st : Int × Unit),
        StartPolling false configs (fun _ t => t) fetches () = .ok (dropped, sent, st) →
        ∀ p ∈ sent, 1 ≤ p.Limit ∧ p.Limit ≤ 100) := by
  intro h
  have h1 := h [⟨0, 500, none, false⟩] [.ok []] [] [⟨0, 500, 60, none⟩] (0, ()) rfl
    ⟨0, 500, 60, none⟩ (by simp)
  revert h1
  decide

/-- C17 (amended): every fetch of the loop of `StartPolling` sends as batch
limit the `Limit` of the first configuration passed when that is positive, and
the default 100 when it is not positive or no configuration is passed. The
limit sent is therefore at least 1, and at most 100 whenever the caller's
`Limit` is at most 100; a `Limit` above 100 is sent as it is. -/
theorem C17_batch_limit {τ : Type} (configs : List PollingConfig) (spawn : Update → τ → τ)
    (fetches : List (Except GoError (List Update))) (t : τ)
    (dropped sent : List GetUpdatesParams) (st : Int × τ)
    (hrun : StartPolling false configs spawn fetches t = .ok (dropped, sent, st)) :
    sent.length = fetches.length ∧
    ∀ p ∈ sent,
      (configs = [] → p.Limit = 100) ∧
      (∀ c rest, configs = c :: rest → c.Limit ≤ 0 → p.Limit = 100) ∧
      (∀ c rest, configs = c :: rest → c.Limit > 0 → p.Limit = c.Limit) ∧
      1 ≤ p.Limit ∧
      ((∀ c rest, configs = c :: rest → c.Limit ≤ 100) → p.Limit ≤ 100) := by
  simp only [StartPolling, Bool.false_eq_true, if_false, Except.ok.injEq, Prod.mk.injEq] at hrun
  obtain ⟨-, hsent, -⟩ := hrun
  obtain ⟨hlen, hlim⟩ := pollLoop_params (pollingConfig configs) spawn fetches (0, t)
  rw [hsent] at hlen hlim
  refine ⟨hlen, ?_⟩
  intro p hp
  have hp2 := hlim p hp
  cases configs with
  | nil =>
    have h100 : p.Limit = 100 := by rw [hp2]; rfl
    refine ⟨fun _ => h100, ?_, ?_, by omega, fun _ => by omega⟩
    · intro c rest hc
      simp at hc
    · intro c rest hc
      simp at hc
  | cons c0 rest0 =>
    by_cases hpos : c0.Limit > 0
    · have hl : p.Limit = c0.Limit := by
        rw [hp2]
        simp [pollingConfig, hpos]
      refine ⟨fun hc => by simp at hc, ?_, ?_, by omega, ?_⟩
      · intro c rest hc hle
        simp only [List.cons.injEq] at hc
        obtain ⟨rfl, -⟩ := hc
        omega
      · intro c rest hc _
        simp only [List.cons.injEq] at hc
        obtain ⟨rfl, -⟩ := hc
        exact hl
      · intro hall
        have := hall c0 rest0 rfl
        omega
    · have hl : p.Limit = 100 := by
        rw [hp2]
        simp [pollingConfig, hpos]
      refine ⟨fun hc => by simp at hc, ?_, ?_, by omega, fun _ => by omega⟩
      · intro c rest _ _
        exact hl
      · intro c rest hc hgt
        simp only [List.cons.injEq] at hc
        obtain ⟨rfl, -⟩ := hc
        exact absurd hgt hpos

/-- Witness of C17 (amended): with `Limit = 0` two fetches of the loop both send
the limit 100. -/
theorem C17_batch_limit_witness :
    [(⟨0, 100, 30, none⟩ : GetUpdatesParams), ⟨8, 100, 30, none⟩].length = 2 ∧
    ∀ p ∈ [(⟨0, 100, 30, none⟩ : GetUpdatesParams), ⟨8, 100, 30, none⟩],
      1 ≤ p.Limit ∧ p.Limit ≤ 100 := by
  have h := C17_batch_limit [⟨30, 0, none, false⟩] (fun _ (t : Unit) => t)
    [.ok [updateWithID 7], .ok []] () [] [⟨0, 100, 30, none⟩, ⟨8, 100, 30, none⟩] (8, ()) rfl
  refine ⟨h.1, fun p hp => ⟨(h.2 p hp).2.2.2.1, (h.2 p hp).2.2.2.2 ?_⟩⟩
  intro c rest hc
  simp only [List.cons.injEq] at hc
  obtain ⟨rfl, -⟩ := hc
  decide

end Gramgo
